import Mathlib

/-!
Verification of the ingestion core of the `elegantbot` backend
(tax-guidance document ingestion: chunking, structured extraction,
reference graph, orchestration).

The Python sources are modelled by a shallow embedding:

* Python `str` values handled character-by-character are modelled as
  `List Char` (`PyStr`); strings only concatenated/compared are Lean
  `String`s.
* Regular expressions from the source are translated into executable
  backtracking matchers (`Matcher` combinators below) that reproduce the
  semantics of the concrete patterns (greedy/lazy repetition, alternation
  priority, MULTILINE anchors, lookahead).
* SQLAlchemy sessions become explicit state records (lists of rows);
  each CRUD function becomes a pure state transformer.
* External effects (HTTP fetch, sha256, the HTML parser) enter the model
  as explicit inputs / function parameters of the orchestrator, mirroring
  the constructor-injected collaborators of the Python pipeline class.
-/

namespace ElegantBot

/-! ## Python string primitives (`str` as `List Char`) -/

abbrev PyStr := List Char

/-- Python `str.isspace` for the characters relevant to `str.strip()` /
regex `\s`: space, tab, newline, carriage return, vertical tab, form feed. -/
def isPySpace (c : Char) : Bool :=
  c = ' ' || c = '\t' || c = '\n' || c = '\r' || c = Char.ofNat 11 || c = Char.ofNat 12

/-- ASCII lowercasing, the effect of Python `str.lower()` on the texts
handled here. -/
def lowerChar (c : Char) : Char :=
  if 'A' ≤ c && c ≤ 'Z' then Char.ofNat (c.toNat + 32) else c

def lowerStr (s : PyStr) : PyStr := s.map lowerChar

def upperChar (c : Char) : Char :=
  if 'a' ≤ c && c ≤ 'z' then Char.ofNat (c.toNat - 32) else c

/-- Python `str.strip()` (both ends, whitespace). -/
def pyStrip (s : PyStr) : PyStr :=
  ((s.dropWhile isPySpace).reverse.dropWhile isPySpace).reverse

/-- Python slice `s[a:b]` (clamping semantics; `a > b` gives `[]`). -/
def pySlice (s : PyStr) (a b : Nat) : PyStr := (s.drop a).take (b - a)

/-- Python slice `s[a:]`. -/
def pyDrop (s : PyStr) (a : Nat) : PyStr := s.drop a

/-- Python slice `s[:b]`. -/
def pyTake (s : PyStr) (b : Nat) : PyStr := s.take b

/-- `sep.join(xs)` for list-of-strings `xs`. -/
def pyJoin (sep : PyStr) : List PyStr → PyStr
  | [] => []
  | [x] => x
  | x :: xs => x ++ sep ++ pyJoin sep xs

/-- Whether `needle` occurs at position `p` of `hay`. -/
def occursAt (needle hay : PyStr) (p : Nat) : Bool :=
  pySlice hay p (p + needle.length) = needle

/-- Python `needle in hay` (substring containment). -/
def pyContains (hay needle : PyStr) : Bool :=
  (List.range (hay.length + 1)).any (occursAt needle hay)

/-- Python `hay.find(needle)`: index of first occurrence, `none` if absent. -/
def pyFind (hay needle : PyStr) : Option Nat :=
  (List.range (hay.length + 1)).find? (occursAt needle hay)

/-- Substring containment for Lean `String`s (Python `in`). -/
def strContains (hay needle : String) : Bool :=
  pyContains hay.toList needle.toList

/-- Python `str.lower()` on a Lean `String` (ASCII). -/
def strLower (s : String) : String := String.mk (lowerStr s.toList)

/-- Python `str.upper()` on a Lean `String` (ASCII). -/
def strUpper (s : String) : String := String.mk (s.toList.map upperChar)

/-! ## Citation generation
(`LegalChunker._infer_manual_name` / `LegalChunker._generate_citable_reference`,
`backend/app/services/ingestion/legal_chunker.py`) -/

/-- The `prefix_map` dictionary of `_infer_manual_name` (insertion order
preserved, as in Python 3.7+ dict iteration). -/
def manualPrefixMap : List (String × String) :=
  [ ("VAT", "VAT Manual"),
    ("CTM", "Corporation Tax Manual"),
    ("CG", "Capital Gains Manual"),
    ("BIM", "Business Income Manual"),
    ("EIM", "Employment Income Manual"),
    ("TSEM", "Trusts Manual"),
    ("SAIM", "Savings Manual"),
    ("PIM", "Property Income Manual"),
    ("NIM", "National Insurance Manual"),
    ("PAYE", "PAYE Manual"),
    ("CH", "Compliance Handbook") ]

/-- `LegalChunker._infer_manual_name`: first prefix of the uppercased
section id found in `prefix_map`, else `"Manual"`. -/
def infer_manual_name (section_id : String) : String :=
  match manualPrefixMap.find? (fun p => (strUpper section_id).startsWith p.1) with
  | some p => p.2
  | none => "Manual"

/-- Python truthiness of an optional string (`None` and `""` are falsy). -/
def optStrTruthy : Option String → Bool
  | none => false
  | some s => s ≠ ""

/-- `LegalChunker._generate_citable_reference`.  The `source_url` parameter
is accepted (as in the source signature) but unused by the body. -/
def generate_citable_reference (document_title section_title heading_path : String)
    (section_id paragraph_number : Option String) (source_url : String) : String :=
  let parts : List String :=
    match section_id with
    | some sid =>
        ["HMRC " ++ infer_manual_name sid, sid] ++
          (if optStrTruthy paragraph_number then ["Para " ++ paragraph_number.getD ""] else [])
    | none =>
        ["GOV.UK"] ++
          (if heading_path ≠ "" && heading_path ≠ document_title then [heading_path]
           else if section_title ≠ "" then [section_title] else []) ++
          (if optStrTruthy paragraph_number then ["Para " ++ paragraph_number.getD ""] else [])
  let _ := source_url
  String.intercalate ", " parts

/-! ## Metadata extractor keyword classification
(`MetadataExtractor._classify_topics` / `_identify_business_types`,
`backend/app/services/ingestion/extractors/metadata_extractor.py`) -/

/-- `MetadataExtractor.TOPIC_KEYWORDS`. -/
def TOPIC_KEYWORDS : List (String × List String) :=
  [ ("vat", ["vat", "value added tax", "vat registration", "vat return", "vat rate"]),
    ("income_tax", ["income tax", "paye", "personal allowance", "tax band", "tax code"]),
    ("corporation_tax", ["corporation tax", "company tax", "ct600", "marginal relief"]),
    ("self_assessment", ["self assessment", "self-assessment", "sa100", "tax return"]),
    ("national_insurance", ["national insurance", "ni contributions", "class 1", "class 2", "class 4"]),
    ("capital_gains", ["capital gains", "cgt", "asset disposal", "annual exempt amount"]),
    ("paye", ["paye", "employer", "payroll", "real time information", "rti"]),
    ("penalties", ["penalty", "penalties", "late filing", "late payment", "surcharge"]),
    ("tax_credits", ["tax credits", "working tax credit", "child tax credit"]),
    ("inheritance_tax", ["inheritance tax", "iht", "estate", "nil rate band"]) ]

/-- `MetadataExtractor.BUSINESS_TYPE_KEYWORDS`. -/
def BUSINESS_TYPE_KEYWORDS : List (String × List String) :=
  [ ("sole_trader", ["sole trader", "self-employed", "self employed", "freelancer"]),
    ("limited_company", ["limited company", "ltd", "company director", "corporation"]),
    ("partnership", ["partnership", "partner", "llp"]),
    ("contractor", ["contractor", "ir35", "off-payroll"]),
    ("landlord", ["landlord", "property income", "rental income", "buy to let"]),
    ("employer", ["employer", "employee", "paye", "payroll"]) ]

/-- Number of keywords of a keyword set occurring in the lowercased text
(`sum(1 for kw in keywords if kw in text_lower)`). -/
def keywordHits (keywords : List String) (text_lower : String) : Nat :=
  keywords.countP (fun kw => strContains text_lower kw)

/-- `MetadataExtractor._classify_topics`: topics whose keyword set scores
at least 2 hits in the lowercased text. -/
def classify_topics (text : String) : List String :=
  (TOPIC_KEYWORDS.filter (fun p => 2 ≤ keywordHits p.2 (strLower text))).map Prod.fst

/-- `MetadataExtractor._identify_business_types`: business types with ANY
keyword hit in the lowercased text. -/
def identify_business_types (text : String) : List String :=
  (BUSINESS_TYPE_KEYWORDS.filter
    (fun p => p.2.any (fun kw => strContains (strLower text) kw))).map Prod.fst

/-! ## Reference graph state
(`backend/app/crud/crud_chunk_reference.py`, rows of
`app/models/chunk.py` and `app/models/chunk_reference.py`)

Row ids are modelled as `Nat`; only the columns the graph operations
read or write are carried. -/

/-- A `DocumentChunk` row (the columns touched by the graph operations). -/
structure DocumentChunk where
  id : Nat
  has_outgoing_references : Bool := false
  has_incoming_references : Bool := false
  deriving Repr, DecidableEq

/-- A `ChunkReference` row. -/
structure ChunkReference where
  id : Nat
  source_chunk_id : Nat
  target_chunk_id : Option Nat := none
  reference_type : String
  reference_strength : String := "recommended"
  reference_text : String
  reference_context : Option String := none
  target_section_id : Option String := none
  is_resolved : Bool := false
  deriving Repr, DecidableEq

/-- The schema `ChunkReferenceCreate` (defaults as in
`app/schema/chunk_reference.py`: `target_chunk_id = None`,
`is_resolved = False`). -/
structure ChunkReferenceCreate where
  source_chunk_id : Nat
  target_chunk_id : Option Nat := none
  reference_type : String
  reference_strength : String := "recommended"
  reference_text : String
  reference_context : Option String := none
  target_section_id : Option String := none
  is_resolved : Bool := false
  deriving Repr, DecidableEq

/-- The schema `ChunkReferenceUpdate`; `none` models an unset field
(pydantic `exclude_unset`). -/
structure ChunkReferenceUpdate where
  target_chunk_id : Option (Option Nat) := none
  is_resolved : Option Bool := none
  reference_strength : Option String := none
  deriving Repr, DecidableEq

/-- The database session state for the graph operations. -/
structure GraphDB where
  chunks : List DocumentChunk
  refs : List ChunkReference
  deriving Repr, DecidableEq

/-- `db.query(DocumentChunk).filter(DocumentChunk.id == cid).first()`,
followed by setting `has_outgoing_references = True` on the returned row
(a no-op when no row matches). -/
def setOutgoingFlag (chunks : List DocumentChunk) (cid : Nat) : List DocumentChunk :=
  if chunks.any (fun c => c.id = cid) then
    chunks.map (fun c => if c.id = cid then { c with has_outgoing_references := true } else c)
  else chunks

/-- Same for `has_incoming_references`. -/
def setIncomingFlag (chunks : List DocumentChunk) (cid : Nat) : List DocumentChunk :=
  if chunks.any (fun c => c.id = cid) then
    chunks.map (fun c => if c.id = cid then { c with has_incoming_references := true } else c)
  else chunks

/-- Build a `ChunkReference` row from a `ChunkReferenceCreate`
(the field copy at the top of `create_reference` / the batch loop);
`newId` stands for the generated primary key. -/
def rowOfCreate (newId : Nat) (rd : ChunkReferenceCreate) : ChunkReference :=
  { id := newId,
    source_chunk_id := rd.source_chunk_id,
    target_chunk_id := rd.target_chunk_id,
    reference_type := rd.reference_type,
    reference_strength := rd.reference_strength,
    reference_text := rd.reference_text,
    reference_context := rd.reference_context,
    target_section_id := rd.target_section_id,
    is_resolved := rd.is_resolved }

/-- `create_reference`: insert the row, raise the source chunk's
outgoing flag, and — when created already resolved with a target — raise
the target chunk's incoming flag. -/
def create_reference (db : GraphDB) (newId : Nat) (rd : ChunkReferenceCreate) :
    GraphDB × ChunkReference :=
  let reference := rowOfCreate newId rd
  let chunks₁ := setOutgoingFlag db.chunks rd.source_chunk_id
  let chunks₂ :=
    if rd.is_resolved then
      match rd.target_chunk_id with
      | some t => setIncomingFlag chunks₁ t
      | none => chunks₁
    else chunks₁
  ({ chunks := chunks₂, refs := db.refs ++ [reference] }, reference)

/-- `create_references_batch`: insert all rows, then bulk-update the
outgoing flag of every source chunk and the incoming flag of every
resolved target chunk. -/
def create_references_batch (db : GraphDB) (firstId : Nat)
    (references : List ChunkReferenceCreate) : GraphDB × List ChunkReference :=
  if references = [] then (db, []) else
  let db_references :=
    (references.enum).map (fun p => rowOfCreate (firstId + p.1) p.2)
  let source_ids := references.map (·.source_chunk_id)
  let chunks₁ := db.chunks.map (fun c =>
    if source_ids.contains c.id then { c with has_outgoing_references := true } else c)
  let resolved_target_ids :=
    (references.filter (fun r => r.is_resolved && r.target_chunk_id.isSome)).filterMap
      (·.target_chunk_id)
  let chunks₂ := chunks₁.map (fun c =>
    if resolved_target_ids.contains c.id then { c with has_incoming_references := true } else c)
  ({ chunks := chunks₂, refs := db.refs ++ db_references }, db_references)

/-- `get_reference`: `.filter(ChunkReference.id == reference_id).first()`. -/
def get_reference (db : GraphDB) (reference_id : Nat) : Option ChunkReference :=
  db.refs.find? (fun r => r.id = reference_id)

/-- `resolve_reference`: link one reference to its target chunk and raise
the target's incoming flag. -/
def resolve_reference (db : GraphDB) (reference_id target_chunk_id : Nat) :
    GraphDB × Option ChunkReference :=
  match get_reference db reference_id with
  | none => (db, none)
  | some reference =>
      let updated := { reference with
        target_chunk_id := some target_chunk_id, is_resolved := true }
      let refs := db.refs.map (fun r => if r.id = reference_id then updated else r)
      let chunks := setIncomingFlag db.chunks target_chunk_id
      ({ chunks := chunks, refs := refs }, some updated)

/-- `resolve_references_by_section`: batch-resolve every unresolved
reference whose `target_section_id` equals `section_id`, then (when any
was resolved) raise the target chunk's incoming flag.  Returns the new
state and `resolved_count`. -/
def resolve_references_by_section (db : GraphDB) (section_id : String)
    (target_chunk_id : Nat) : GraphDB × Nat :=
  let isMatch := fun (r : ChunkReference) =>
    r.target_section_id = some section_id && r.is_resolved = false
  let refs := db.refs.map (fun r =>
    if isMatch r then { r with target_chunk_id := some target_chunk_id, is_resolved := true }
    else r)
  let resolved_count := db.refs.countP isMatch
  let chunks :=
    if 0 < resolved_count then setIncomingFlag db.chunks target_chunk_id else db.chunks
  ({ chunks := chunks, refs := refs }, resolved_count)

/-- Apply a `ChunkReferenceUpdate` to a row
(`for field, value in update_dict.items(): setattr(...)`). -/
def applyUpdate (r : ChunkReference) (u : ChunkReferenceUpdate) : ChunkReference :=
  let r₁ := match u.target_chunk_id with
    | some v => { r with target_chunk_id := v }
    | none => r
  let r₂ := match u.is_resolved with
    | some v => { r₁ with is_resolved := v }
    | none => r₁
  match u.reference_strength with
  | some v => { r₂ with reference_strength := v }
  | none => r₂

/-- `update_reference`: generic partial update of a reference row. -/
def update_reference (db : GraphDB) (reference_id : Nat)
    (update_data : ChunkReferenceUpdate) : GraphDB × Option ChunkReference :=
  match get_reference db reference_id with
  | none => (db, none)
  | some reference =>
      let updated := applyUpdate reference update_data
      let refs := db.refs.map (fun r => if r.id = reference_id then updated else r)
      ({ db with refs := refs }, some updated)

/-- The documented row invariant:
`is_resolved == (target_chunk_id is not None)`. -/
def refInvariant (r : ChunkReference) : Prop :=
  r.is_resolved = r.target_chunk_id.isSome

instance (r : ChunkReference) : Decidable (refInvariant r) := by
  unfold refInvariant; infer_instance

/-! ## Graph traversal (`expand_references`) -/

/-- One pass of the inner `for ref in references` loop of
`expand_references`: add unseen targets, recording followed references,
breaking as soon as the accumulated id set reaches `max_total_chunks`. -/
def expandInner (max_total : Nat) :
    List ChunkReference → List Nat → List Nat → List ChunkReference →
    (List Nat × List Nat × List ChunkReference)
  | [], all, nw, acc => (all, nw, acc)
  | r :: rest, all, nw, acc =>
      match r.target_chunk_id with
      | some t =>
          if all.contains t then expandInner max_total rest all nw acc
          else
            let all' := all ++ [t]
            let nw' := nw ++ [t]
            let acc' := acc ++ [r]
            if max_total ≤ all'.length then (all', nw', acc')
            else expandInner max_total rest all' nw' acc'
      | none => expandInner max_total rest all nw acc

/-- The `for depth in range(max_depth)` loop of `expand_references`. -/
def expandLoop (refs : List ChunkReference) (strength_filter : List String)
    (max_total : Nat) :
    Nat → List Nat → List Nat → List ChunkReference → (List Nat × List ChunkReference)
  | 0, all, _, acc => (all, acc)
  | depth + 1, all, current, acc =>
      if max_total ≤ all.length then (all, acc)
      else
        let references := refs.filter (fun r =>
          current.contains r.source_chunk_id && r.is_resolved
            && strength_filter.contains r.reference_strength)
        let s := expandInner max_total references all [] acc
        if s.2.1 = [] then (s.1, s.2.2)
        else expandLoop refs strength_filter max_total depth s.1 s.2.1 s.2.2

/-- Deduplicate preserving first occurrence (`set(chunk_ids)` as a list
in insertion order; only the cardinality and membership of the set are
used by the theorems). -/
def dedup (xs : List Nat) : List Nat :=
  xs.foldl (fun acc x => if acc.contains x then acc else acc ++ [x]) []

/-- `expand_references` (`crud_chunk_reference.py`).  Returns
`(all_chunk_ids, references_followed)`. -/
def expand_references (refs : List ChunkReference) (chunk_ids : List Nat)
    (max_depth : Nat) (strength_filter : List String) (max_total_chunks : Nat) :
    List Nat × List ChunkReference :=
  expandLoop refs strength_filter max_total_chunks max_depth (dedup chunk_ids) chunk_ids []

/-- Reachability in at most `n` resolved hops through references whose
strength passes the filter, starting from the seed list. -/
inductive Reach (refs : List ChunkReference) (filter : List String)
    (seeds : List Nat) : Nat → Nat → Prop
  | seed {x : Nat} : x ∈ seeds → Reach refs filter seeds x 0
  | step {x y n : Nat} {r : ChunkReference} :
      Reach refs filter seeds x n → r ∈ refs → r.source_chunk_id = x →
      r.is_resolved = true → r.reference_strength ∈ filter →
      r.target_chunk_id = some y → Reach refs filter seeds y (n + 1)

/-! ## Backtracking regex matchers

The regular expressions of the chunker and the extractors are translated
into combinators over `PyStr`.  A `Matcher` maps a string and a start
position to the list of candidate end positions in backtracking priority
order (greedy alternatives first, alternation branches in source order),
exactly the order in which the `re` engine explores them. -/

def Matcher := PyStr → Nat → List Nat

/-- Empty pattern. -/
def mEps : Matcher := fun _ p => [p]

/-- Single character from a class. -/
def mChar (pred : Char → Bool) : Matcher := fun s p =>
  match s.get? p with
  | some c => if pred c then [p + 1] else []
  | none => []

/-- Concatenation (each candidate of the first feeds the second). -/
def mSeq (a b : Matcher) : Matcher := fun s p => (a s p).flatMap (b s)

/-- Alternation in priority order. -/
def mAlt (a b : Matcher) : Matcher := fun s p => a s p ++ b s p

def mAltList : List Matcher → Matcher
  | [] => fun _ _ => []
  | m :: ms => mAlt m (mAltList ms)

/-- Greedy option `X?`. -/
def mOpt (a : Matcher) : Matcher := fun s p => a s p ++ [p]

/-- Greedy bounded repetition `(?:X){0,n}`. -/
def mRepAtMost (a : Matcher) : Nat → Matcher
  | 0 => mEps
  | n + 1 => mAlt (mSeq a (mRepAtMost a n)) mEps

/-- Length of the run of `pred`-characters starting at `p`. -/
def runLen (pred : Char → Bool) (s : PyStr) (p : Nat) : Nat :=
  ((s.drop p).takeWhile pred).length

/-- Greedy `C*` over a character class: candidates from longest to empty. -/
def mStarGreedy (pred : Char → Bool) : Matcher := fun s p =>
  let k := runLen pred s p
  (List.range (k + 1)).map (fun i => p + k - i)

/-- Greedy `C+` over a character class. -/
def mPlusGreedy (pred : Char → Bool) : Matcher := fun s p =>
  let k := runLen pred s p
  (List.range k).map (fun i => p + k - i)

/-- Case-insensitive literal (`w` given lowercased). -/
def mLitCI (w : String) : Matcher := fun s p =>
  if lowerStr (pySlice s p (p + w.toList.length)) = w.toList then [p + w.toList.length] else []

/-- Case-sensitive literal. -/
def mLit (w : String) : Matcher := fun s p =>
  if pySlice s p (p + w.toList.length) = w.toList then [p + w.toList.length] else []

/-- MULTILINE `^`: start of string or right after a newline. -/
def mLineStart : Matcher := fun s p =>
  if p = 0 then [p]
  else if s.get? (p - 1) = some '\n' then [p] else []

/-- Zero-width lookahead `(?=X)`. -/
def mLook (a : Matcher) : Matcher := fun s p => if (a s p).isEmpty then [] else [p]

/-- End of string `\Z`. -/
def mEnd : Matcher := fun s p => if p = s.length then [p] else []

def isWordChar (c : Char) : Bool :=
  ('a' ≤ c && c ≤ 'z') || ('A' ≤ c && c ≤ 'Z') || ('0' ≤ c && c ≤ '9') || c = '_'

/-- Word boundary `\b`. -/
def mWordBoundary : Matcher := fun s p =>
  let before := if p = 0 then false else
    match s.get? (p - 1) with | some c => isWordChar c | none => false
  let after := match s.get? p with | some c => isWordChar c | none => false
  if before ≠ after then [p] else []

def isLowerAZ (c : Char) : Bool := 'a' ≤ c && c ≤ 'z'
def isUpperAZ (c : Char) : Bool := 'A' ≤ c && c ≤ 'Z'
def isAlphaCI (c : Char) : Bool := isLowerAZ c || isUpperAZ c
def isDigitC (c : Char) : Bool := '0' ≤ c && c ≤ '9'

/-- First (highest-priority) end of a match of `m` at position `p`. -/
def firstEnd (m : Matcher) (s : PyStr) (p : Nat) : Option Nat := (m s p).head?

/-- Leftmost match: `re.search` (fuelled scan; fuel `s.length + 2` always
suffices since the position advances each step). -/
def reSearchAux (m : Matcher) (s : PyStr) : Nat → Nat → Option (Nat × Nat)
  | 0, _ => none
  | fuel + 1, p =>
      match firstEnd m s p with
      | some e => some (p, e)
      | none => if s.length ≤ p then none else reSearchAux m s fuel (p + 1)

def reSearch (m : Matcher) (s : PyStr) : Option (Nat × Nat) :=
  reSearchAux m s (s.length + 2) 0

/-- `re.finditer`: leftmost non-overlapping matches, resuming after each
match end. -/
def finditerAux (m : Matcher) (s : PyStr) : Nat → Nat → List (Nat × Nat)
  | 0, _ => []
  | fuel + 1, p =>
      match firstEnd m s p with
      | some e => (p, e) :: finditerAux m s fuel (max e (p + 1))
      | none => if s.length ≤ p then [] else finditerAux m s fuel (p + 1)

def refinditer (m : Matcher) (s : PyStr) : List (Nat × Nat) :=
  finditerAux m s (s.length + 2) 0

/-! ## Legal chunker patterns
(`LegalChunker`, `backend/app/services/ingestion/legal_chunker.py`) -/

def wsPlus : Matcher := mPlusGreedy isPySpace
def wsStar : Matcher := mStarGreedy isPySpace

/-- Head alternation of `CONDITION_START_PATTERN` (case-insensitive):
the five lead-in alternatives before the trailing colon part. -/
def condStartHead : Matcher :=
  mAltList
    [ mSeq (mLitCI "you") (mSeq wsPlus (mAltList
        [ mLitCI "must", mLitCI "should",
          mSeq (mLitCI "can") (mOpt (mLitCI "not")),
          mSeq (mLitCI "need") (mSeq wsPlus (mLitCI "to")),
          mSeq (mLitCI "will") (mSeq wsPlus (mSeq (mLitCI "need") (mSeq wsPlus (mLitCI "to")))) ])),
      mSeq (mOpt (mSeq (mLitCI "a") wsPlus))
        (mSeq (mAltList [mLitCI "person", mLitCI "business", mLitCI "company", mLitCI "trader"])
          (mSeq wsPlus (mAltList [mLitCI "must", mLitCI "should", mLitCI "can"]))),
      mSeq (mAltList [mLitCI "this", mSeq (mLitCI "the") (mSeq wsPlus (mLitCI "following"))])
        (mSeq wsPlus (mSeq (mAltList
            [ mSeq (mLitCI "applie") (mOpt (mLitCI "s")),
              mSeq (mLitCI "condition") (mOpt (mLitCI "s")) ])
          (mSeq wsPlus (mAltList [mLitCI "if", mLitCI "when", mLitCI "where"])))),
      mSeq (mLitCI "if") (mSeq wsPlus (mSeq (mAltList [mLitCI "any", mLitCI "all"])
        (mSeq wsPlus (mSeq (mLitCI "of") (mSeq wsPlus (mSeq (mLitCI "the") (mSeq wsPlus (mLitCI "following")))))))),
      mSeq (mLitCI "you") (mSeq (mOpt (mChar (· = '\''))) (mSeq (mLitCI "r") (mSeq (mOpt (mLitCI "e"))
        (mSeq wsPlus (mSeq (mAltList [mLitCI "required", mLitCI "obliged"]) (mSeq wsPlus (mLitCI "to"))))))) ]

/-- Trailing part of `CONDITION_START_PATTERN`: greedy run of non-dot
characters followed by a colon (the match ends at the last colon before
the next full stop). -/
def nonDotColonTail : Matcher := fun s p =>
  let stop := p + runLen (fun c => c ≠ '.') s p
  ((List.range (stop - p)).map (fun i => stop - 1 - i)).filterMap
    (fun t => if s.get? t = some ':' then some (t + 1) else none)

/-- `LegalChunker.CONDITION_START_PATTERN`. -/
def condStartPat : Matcher := mSeq condStartHead nonDotColonTail

/-- `LegalChunker.CONDITION_ITEM_PATTERN`: a MULTILINE line start,
optional whitespace, a parenthesised lowercase letter, trailing
whitespace (greedy). -/
def condItemPat : Matcher :=
  mSeq mLineStart (mSeq wsStar (mSeq (mChar (· = '(')) (mSeq (mChar isLowerAZ)
    (mSeq (mChar (· = ')')) wsStar))))

/-- `LegalChunker._has_condition_list`. -/
def has_condition_list (text : PyStr) : Bool :=
  (reSearch condStartPat text).isSome && (reSearch condItemPat text).isSome

/-- `LegalChunker._find_condition_list_boundaries`. -/
def find_condition_list_boundaries (text : PyStr) : List (Nat × Nat) :=
  (refinditer condStartPat text).filterMap (fun m =>
    let start := m.1
    let remaining := pyDrop text start
    let items := refinditer condItemPat remaining
    match items.getLast? with
    | none => none
    | some last =>
        let last_item_start := last.2
        let end_search := pyDrop remaining last_item_start
        let e := match pyFind end_search ['\n', '\n'] with
          | some para_break => start + last_item_start + para_break
          | none => text.length
        some (start, min e text.length))

/-- The paragraph-break pattern of `_split_at_boundaries` (two or more
newlines, greedy). -/
def paraBreakPat : Matcher := mSeq (mChar (· = '\n')) (mPlusGreedy (· = '\n'))

/-- The sentence-break pattern of `_split_at_boundaries`: lookbehind for
sentence punctuation, whitespace, lookahead for an uppercase letter. -/
def sentenceBreakPat : Matcher := fun s p =>
  if p = 0 then []
  else match s.get? (p - 1) with
  | some c =>
      if c = '.' || c = '!' || c = '?' then
        (mSeq wsPlus (mLook (mChar isUpperAZ))) s p
      else []
  | none => []

/-- Python `str.rfind(needle)` restricted to a single space character. -/
def rfindSpace (s : PyStr) : Option Nat :=
  ((List.range s.length).map (fun i => s.length - 1 - i)).find?
    (fun t => s.get? t = some ' ')

/-- Loop body of `LegalChunker._split_at_boundaries` (fuelled; the Python
loop diverges when `max_size = 0`, the fuel `text.length + 1` is enough
for every `max_size ≥ 1` since each step strictly shrinks the text). -/
def splitAtBAux (max_size : Nat) : Nat → PyStr → List PyStr
  | 0, _ => []
  | fuel + 1, remaining =>
      if remaining = [] then []
      else if remaining.length ≤ max_size then [remaining]
      else
        let chunk_candidate := pyTake remaining max_size
        let split_point :=
          match (refinditer paraBreakPat chunk_candidate).getLast? with
          | some m => m.2
          | none =>
              match (refinditer sentenceBreakPat chunk_candidate).getLast? with
              | some m => m.2
              | none =>
                  match rfindSpace chunk_candidate with
                  | some last_space => if max_size / 2 < last_space then last_space else max_size
                  | none => max_size
        pyStrip (pyTake remaining split_point) ::
          splitAtBAux max_size fuel (pyStrip (pyDrop remaining split_point))

/-- `LegalChunker._split_at_boundaries`. -/
def split_at_boundaries (text : PyStr) (max_size : Nat) : List PyStr :=
  if text.length ≤ max_size then [text]
  else (splitAtBAux max_size (text.length + 1) text).filter (· ≠ [])

/-- Accumulator of the `_split_preserving_lists` loop. -/
structure SplitState where
  pieces : List PyStr
  cur : List PyStr
  size : Nat
  pos : Nat

/-- The before-list half of the loop body of
`_split_preserving_lists`: flush the current chunk when the text before
the list would overflow it, then append that text to the current
chunk. -/
def stepBefore (text : PyStr) (max_size : Nat) (st : SplitState) (list_start : Nat) :
    SplitState :=
  if pyStrip (pySlice text st.pos list_start) ≠ [] then
    if max_size < st.size + (pyStrip (pySlice text st.pos list_start)).length ∧ st.cur ≠ [] then
      { st with
        pieces := st.pieces ++ [pyJoin ['\n'] st.cur],
        cur := [pyStrip (pySlice text st.pos list_start)],
        size := (pyStrip (pySlice text st.pos list_start)).length }
    else
      { st with
        cur := st.cur ++ [pyStrip (pySlice text st.pos list_start)],
        size := st.size + (pyStrip (pySlice text st.pos list_start)).length }
  else st

/-- The condition-list half of the loop body: an overflowing list
flushes the current chunk and is emitted whole — or, above the
`max_condition_list_size` ceiling, split generically as a last resort; a
fitting list joins the current chunk. -/
def stepList (text : PyStr) (max_size ceiling : Nat) (st : SplitState)
    (list_start list_end : Nat) : SplitState :=
  if max_size < st.size + (pyStrip (pySlice text list_start list_end)).length then
    if ceiling < (pyStrip (pySlice text list_start list_end)).length then
      { pieces := (if st.cur ≠ [] then st.pieces ++ [pyJoin ['\n'] st.cur] else st.pieces)
          ++ split_at_boundaries (pyStrip (pySlice text list_start list_end)) max_size,
        cur := [], size := 0, pos := list_end }
    else
      { pieces := (if st.cur ≠ [] then st.pieces ++ [pyJoin ['\n'] st.cur] else st.pieces)
          ++ [pyStrip (pySlice text list_start list_end)],
        cur := [], size := 0, pos := list_end }
  else
    { st with
      cur := st.cur ++ [pyStrip (pySlice text list_start list_end)],
      size := st.size + (pyStrip (pySlice text list_start list_end)).length,
      pos := list_end }

/-- One iteration of the `for list_start, list_end in list_boundaries`
loop of `_split_preserving_lists`. -/
def stepPL (text : PyStr) (max_size ceiling : Nat) (st : SplitState) (b : Nat × Nat) :
    SplitState :=
  stepList text max_size ceiling (stepBefore text max_size st b.1) b.1 b.2

/-- The boundary loop of `_split_preserving_lists`. -/
def splitPLLoop (text : PyStr) (max_size ceiling : Nat) :
    List (Nat × Nat) → SplitState → SplitState
  | [], st => st
  | b :: rest, st => splitPLLoop text max_size ceiling rest (stepPL text max_size ceiling st b)

/-- The tail of `_split_preserving_lists` after the loop: handle the
text after the last list, flush the current chunk, and drop
whitespace-only pieces. -/
def finalizePL (text : PyStr) (max_size : Nat) (st : SplitState) : List PyStr :=
  (if pyStrip (pyDrop text st.pos) ≠ [] then
     if max_size < st.size + (pyStrip (pyDrop text st.pos)).length ∧ st.cur ≠ [] then
       (st.pieces ++ [pyJoin ['\n'] st.cur])
         ++ split_at_boundaries (pyStrip (pyDrop text st.pos)) max_size
     else st.pieces ++ [pyJoin ['\n'] (st.cur ++ [pyStrip (pyDrop text st.pos)])]
   else if st.cur ≠ [] then st.pieces ++ [pyJoin ['\n'] st.cur]
   else st.pieces).filter (fun p => pyStrip p ≠ [])

/-- `LegalChunker._split_preserving_lists` (with the configured
`max_condition_list_size` passed as `ceiling`). -/
def split_preserving_lists (text : PyStr) (max_size ceiling : Nat) : List PyStr :=
  if text.length ≤ max_size then [text]
  else if find_condition_list_boundaries text = [] then split_at_boundaries text max_size
  else
    finalizePL text max_size
      (splitPLLoop text max_size ceiling (find_condition_list_boundaries text)
        { pieces := [], cur := [], size := 0, pos := 0 })

/-- Specification predicate for the atomicity proof: the string `u`
occurs contiguously inside an already-emitted piece or inside one
element of the pending current chunk. -/
def HoldsIn (u : PyStr) (pieces cur : List PyStr) : Prop :=
  (∃ p ∈ pieces, u <:+: p) ∨ (∃ c ∈ cur, u <:+: c)

/-! ## HMRC section ids and paragraph numbers -/

/-- Five digits. -/
def mDigits5 : Matcher :=
  mSeq (mChar isDigitC) (mSeq (mChar isDigitC) (mSeq (mChar isDigitC)
    (mSeq (mChar isDigitC) (mChar isDigitC))))

/-- The inner alternation of the VAT pattern of
`LegalChunker.HMRC_SECTION_PATTERNS`, in source order. -/
def vatSubCodes : List String :=
  ["reg", "sc", "tos", "inf", "it", "not", "poss", "frs", "rec", "aos",
   "gen", "adj", "pe", "ra", "sg", "am", "dt", "land", "fin", "fs"]

/-- One section-id pattern: word boundary, case-insensitive prefix
alternation, five digits, word boundary. -/
def hmrcIdPat (prefixes : List String) : Matcher :=
  mSeq mWordBoundary
    (mSeq (mAltList (prefixes.map mLitCI)) (mSeq mDigits5 mWordBoundary))

/-- `LegalChunker.HMRC_SECTION_PATTERNS` in source order. -/
def HMRC_SECTION_PATTERNS : List Matcher :=
  [ hmrcIdPat (vatSubCodes.map (fun c => "vat" ++ c)),
    hmrcIdPat ["ctm"], hmrcIdPat ["cg"], hmrcIdPat ["bim"], hmrcIdPat ["eim"],
    hmrcIdPat ["tsem"], hmrcIdPat ["saim"], hmrcIdPat ["pim"], hmrcIdPat ["nim"],
    hmrcIdPat ["paye"], hmrcIdPat ["ch"] ]

/-- `LegalChunker._extract_hmrc_section_id`: first pattern with a match;
the matched id uppercased (the word boundaries at both ends are
zero-width, so the match span is the id itself). -/
def extract_hmrc_section_id (text : PyStr) : Option PyStr :=
  (HMRC_SECTION_PATTERNS.findSome? (fun pat => reSearch pat text)).map
    (fun m => (pySlice text m.1 m.2).map upperChar)

/-- Candidate end positions (priority order) of the optional
`Para(graph)?.?\s*` lead-in of `LegalChunker.PARAGRAPH_PATTERN`
at position `p` (case-sensitive), the no-lead-in branch last. -/
def paraLeadEnds (s : PyStr) (p : Nat) : List Nat :=
  (mOpt (mSeq (mLit "Para") (mSeq (mOpt (mLit "graph")) (mSeq (mOpt (mLit ".")) wsStar)))) s p

/-- Digit-sequence group `\d+(?:\.\d+)*` (greedy), returning the end. -/
def paraDigitsEnd (s : PyStr) (p : Nat) : Option Nat :=
  let k := runLen isDigitC s p
  if k = 0 then none
  else
    let rec reps (fuel : Nat) (t : Nat) : Nat :=
      match fuel with
      | 0 => t
      | fuel + 1 =>
          if s.get? t = some '.' then
            let k' := runLen isDigitC s (t + 1)
            if k' = 0 then t else reps fuel (t + 1 + k')
          else t
    some (reps s.length (p + k))

/-- `LegalChunker._extract_paragraph_number`: first MULTILINE match of
`PARAGRAPH_PATTERN` in the first 200 characters; returns group 1. -/
def extract_paragraph_number (text : PyStr) : Option PyStr :=
  let s := pyTake text 200
  let tryAt := fun (p : Nat) =>
    if (mLineStart s p).isEmpty then none
    else
      (paraLeadEnds s p).findSome? (fun q =>
        (paraDigitsEnd s q).map (fun e => pySlice s q e))
  (List.range (s.length + 1)).findSome? tryAt

/-! ## Legal chunker sections and documents
(`LegalChunker._chunk_section` / `chunk_document`) -/

/-- A section from the content parser (`ContentSection`). -/
structure ContentSection where
  heading : PyStr
  level : Nat
  content : PyStr
  heading_path : PyStr
  deriving Repr, DecidableEq

/-- `LegalChunkingConfig` with the source defaults. -/
structure LegalChunkingConfig where
  min_chunk_size : Nat := 200
  max_chunk_size : Nat := 3000
  target_chunk_size : Nat := 1500
  overlap_size : Nat := 150
  preserve_condition_lists : Bool := true
  preserve_definitions : Bool := true
  preserve_examples : Bool := true
  max_condition_list_size : Nat := 4000
  extract_hmrc_section_ids : Bool := true
  extract_paragraph_numbers : Bool := true
  generate_citable_reference : Bool := true
  detect_content_type : Bool := true
  deriving Repr, DecidableEq

/-- A `LegalChunk`.  The annotation fields of the Python dataclass that
no verified property reads (`content_type`, the `contains_definition` /
`contains_example` / `contains_table_reference` / `contains_deadline` /
`contains_penalty_info` / `contains_contact_info` flags,
`cross_references`, `overlap_text`) are not carried by the model. -/
structure LegalChunk where
  content : PyStr
  chunk_index : Nat
  total_chunks : Nat
  char_start : Nat
  char_end : Nat
  section_title : PyStr
  heading_path : PyStr
  heading_level : Nat
  section_id : Option PyStr
  paragraph_number : Option PyStr
  citable_reference : Option String
  contains_condition_list : Bool
  has_overlap_with_previous : Bool
  deriving Repr, DecidableEq

/-- The full content assembled at the top of `_chunk_section`
(`f"## {section.heading}\n\n{section.content}"` when the heading is
non-empty). -/
def sectionFullContent (sec : ContentSection) : PyStr :=
  if sec.heading ≠ [] then
    ("## ".toList ++ sec.heading ++ "\n\n".toList ++ sec.content)
  else sec.content

/-- `LegalChunker._chunk_section`. -/
def chunk_section (cfg : LegalChunkingConfig) (sec : ContentSection)
    (start_index : Nat) (document_title : PyStr) (source_url : String) : List LegalChunk :=
  let full_content := sectionFullContent sec
  if full_content.length < cfg.min_chunk_size then []
  else
    let section_id :=
      if cfg.extract_hmrc_section_ids then extract_hmrc_section_id full_content else none
    let pieces :=
      if cfg.preserve_condition_lists && has_condition_list full_content then
        split_preserving_lists full_content cfg.max_chunk_size cfg.max_condition_list_size
      else split_at_boundaries full_content cfg.target_chunk_size
    let step := fun (acc : List LegalChunk × Nat × Nat) (piece : PyStr) =>
      let (chunks, i, char_pos) := acc
      let paragraph_num :=
        if cfg.extract_paragraph_numbers then extract_paragraph_number piece else none
      let citable_ref :=
        if cfg.generate_citable_reference then
          some (generate_citable_reference (String.mk document_title)
            (String.mk sec.heading) (String.mk sec.heading_path)
            (section_id.map String.mk) (paragraph_num.map String.mk) source_url)
        else none
      let chunk : LegalChunk :=
        { content := piece,
          chunk_index := start_index + i,
          total_chunks := 0,
          char_start := char_pos,
          char_end := char_pos + piece.length,
          section_title := sec.heading,
          heading_path := sec.heading_path,
          heading_level := sec.level,
          section_id := section_id,
          paragraph_number := paragraph_num,
          citable_reference := citable_ref,
          contains_condition_list := has_condition_list piece,
          has_overlap_with_previous := 0 < i }
      (chunks ++ [chunk], i + 1, char_pos + piece.length)
    (pieces.foldl step ([], 0, 0)).1

/-- The parser output consumed by `chunk_document` (`ParsedDocument`). -/
structure ParsedDocument where
  title : PyStr
  sections : List ContentSection
  full_text : PyStr
  has_content : Bool
  word_count : Nat
  deriving Repr, DecidableEq

/-- `LegalChunker.chunk_document`. -/
def chunk_document (cfg : LegalChunkingConfig) (parsed_doc : ParsedDocument)
    (source_url : String) (document_title : Option PyStr) : List LegalChunk :=
  let title :=
    match document_title with
    | some t => if t ≠ [] then t else parsed_doc.title
    | none => parsed_doc.title
  let all_chunks :=
    if parsed_doc.sections = [] then
      if parsed_doc.full_text ≠ [] then
        chunk_section cfg
          { heading := title, level := 1, content := parsed_doc.full_text,
            heading_path := title } 0 title source_url
      else []
    else
      parsed_doc.sections.foldl
        (fun (acc : List LegalChunk) sec =>
          acc ++ chunk_section cfg sec acc.length title source_url) []
  let total := all_chunks.length
  all_chunks.map (fun c => { c with total_chunks := total })

/-! ## Source fetcher
(`GovUKClient.fetch_document`, `backend/app/services/ingestion/gov_uk_client.py`)

The HTTP layer is an external collaborator: the response and the parsed
JSON envelope enter the model as inputs; only the status handling is
code of the repository. -/

/-- The fields of the `GovUKDocument` envelope the modelled pipeline
paths consume. -/
structure GovUKDocument where
  url : String
  title : PyStr
  body_html : String
  document_type : String
  schema_name : String
  deriving Repr, DecidableEq

structure HttpResponse where
  status_code : Nat
  text : String
  deriving Repr, DecidableEq

/-- Status handling of `GovUKClient.fetch_document`: 404 raises the
distinguished not-found `GovUKContentAPIError`, any other non-200 raises
a generic API error, 200 yields the envelope (errors are modelled as
`Except.error` carrying the exception message).  Note that the enhanced
pipeline's step 1 calls a method named `fetch`, not this one; see
`govUKClientAttrs` below. -/
def fetch_document (path : String) (response : HttpResponse)
    (envelope : GovUKDocument) : Except String GovUKDocument :=
  if response.status_code = 404 then
    Except.error ("Document not found: " ++ path)
  else if response.status_code ≠ 200 then
    Except.error ("API error " ++ toString response.status_code ++ ": "
      ++ String.mk (pyTake response.text.toList 200))
  else Except.ok envelope

/-! ## Ingestion orchestrator
(`EnhancedIngestionPipeline`, `backend/app/services/ingestion/enhanced_pipeline.py`)

The SHA-256 content hash (`_compute_content_hash`, a call into
`hashlib`) is a function parameter of the orchestrator; the HTML parser
(`ContentParser.parse`) is an external step whose output `ParsedDocument`
is an input.  The persisted rows modelled are documents and chunks — the
structured-fact and reference rows written by the non-skip path do not
participate in any verified property and are not carried.

Two attribute accesses in `ingest_url` name members that do not exist:
step 1 evaluates `self.gov_uk_client.fetch(url)` although `GovUKClient`
defines no attribute `fetch` (only `fetch_document`; no alias, subclass
or reassignment exists anywhere in the repository), and step 4 reads
`gov_uk_doc.locale`, `gov_uk_doc.first_published_at` and
`gov_uk_doc.public_updated_at` although the `GovUKDocument` dataclass
has none of these fields.  Each such access raises `AttributeError`,
caught by the generic `except Exception` handler, which records
`action = "failed"` with `success = False`.  The attribute sets of the
two classes are embedded below (`govUKClientAttrs`,
`govUKDocumentFields`) so both lookups are modelled rather than
assumed away; `ingest_url_asWritten` is the entry point the program
actually executes. -/

/-- The attributes (methods) the `GovUKClient` class defines
(`gov_uk_client.py`, lines 67-533).  `fetch` is not among them. -/
def govUKClientAttrs : List String :=
  ["__init__", "_rate_limit", "_normalize_path", "_parse_datetime",
   "_extract_breadcrumbs", "_extract_child_sections", "_extract_body_html",
   "fetch_document", "fetch_hmrc_manual", "get_tax_guidance_urls",
   "get_hmrc_manual_urls"]

/-- The fields the `GovUKDocument` dataclass defines (`gov_uk_client.py`,
lines 28-59).  `locale`, `first_published_at` and `public_updated_at`
are not among them. -/
def govUKDocumentFields : List String :=
  ["url", "base_path", "title", "description", "body_html",
   "document_type", "schema_name", "first_published", "last_updated",
   "breadcrumbs", "parent_title", "parent_path", "child_sections",
   "raw_response"]

/-- The keyword arguments of the `DocumentCreate(...)` constructor call
in step 4 of `ingest_url` that are attribute reads off `gov_uk_doc`
(`enhanced_pipeline.py`, lines 379-395), in source order. -/
def docCreateEnvelopeArgs : List String :=
  ["url", "title", "description", "body_html", "schema_name", "locale",
   "first_published_at", "public_updated_at"]

/-- A `SourceDocument` row (columns the orchestrator reads/writes). -/
structure SourceDocument where
  id : Nat
  url : String
  content_hash : String
  deriving Repr, DecidableEq

/-- A persisted chunk row. -/
structure ChunkRow where
  id : Nat
  document_id : Nat
  content : PyStr
  deriving Repr, DecidableEq

structure PipelineDB where
  documents : List SourceDocument
  chunks : List ChunkRow
  deriving Repr, DecidableEq

/-- `crud_document.get_document_by_url`. -/
def get_document_by_url (db : PipelineDB) (url : String) : Option SourceDocument :=
  db.documents.find? (fun d => d.url = url)

/-- Fresh primary keys (generated ids of the persistence layer). -/
def nextDocId (db : PipelineDB) : Nat := (db.documents.map (·.id)).foldl max 0 + 1
def nextChunkId (db : PipelineDB) : Nat := (db.chunks.map (·.id)).foldl max 0 + 1

/-- `EnhancedIngestionResult` (the fields the control flow writes). -/
structure EnhancedIngestionResult where
  url : String
  success : Bool
  document_id : Option Nat
  action : String
  error : Option String
  chunks_created : Nat
  deriving Repr, DecidableEq

/-- The document-creation path of `ingest_url` (steps 4-7: construct the
`DocumentCreate` record, create the document row, chunk with legal
awareness, batch-create the chunk rows; structured facts and references
are persisted afterwards in the source but are not modelled rows).
Constructing `DocumentCreate` first reads its keyword arguments off
`gov_uk_doc`; the read of the nonexistent field `locale` raises
`AttributeError` before any write, so the else-branch here is the one
the code as written takes: the generic `except Exception` handler of
`ingest_url` records the failure (the interpreter's message quotes the
identifiers; the quotes are elided in the modelled string) and the
store is untouched. -/
def ingestCreatePath (cfg : LegalChunkingConfig) (content_hash : String)
    (action : String) (url : String) (gov_uk_doc : GovUKDocument)
    (parsed_doc : ParsedDocument) (db : PipelineDB) :
    EnhancedIngestionResult × PipelineDB :=
  if docCreateEnvelopeArgs.all (fun f => govUKDocumentFields.contains f) then
    let document : SourceDocument :=
      { id := nextDocId db, url := gov_uk_doc.url, content_hash := content_hash }
    let chunks := chunk_document cfg parsed_doc gov_uk_doc.url (some gov_uk_doc.title)
    let rows := (chunks.enum).map (fun p =>
      ({ id := nextChunkId db + p.1, document_id := document.id,
         content := p.2.content } : ChunkRow))
    ({ url := url, success := true, document_id := some document.id,
       action := action, error := none, chunks_created := rows.length },
     { documents := db.documents ++ [document], chunks := db.chunks ++ rows })
  else
    ({ url := url, success := false, document_id := none, action := "failed",
       error := some "Processing error: GovUKDocument object has no attribute locale",
       chunks_created := 0 }, db)

/-- The body of `EnhancedIngestionPipeline.ingest_url` downstream of the
step-1 fetch call, parameterised by that call's outcome: guard on empty
body and insufficient content, hash the parsed full text, skip when the
stored hash matches, otherwise run the creation path; an error outcome
is caught and recorded as a failure.  The `fetched` parameter is
counterfactual: the source line is `self.gov_uk_client.fetch(url)` and
`GovUKClient` defines no attribute `fetch` (see `govUKClientAttrs`), so
the program as written — modelled by `ingest_url_asWritten` below —
always raises `AttributeError` at step 1 and never reaches the
`Except.ok` branches. -/
def ingest_url (cfg : LegalChunkingConfig) (sha256 : PyStr → String)
    (url : String) (fetched : Except String GovUKDocument)
    (parsed_doc : ParsedDocument) (db : PipelineDB) :
    EnhancedIngestionResult × PipelineDB :=
  match fetched with
  | Except.error e =>
      ({ url := url, success := false, document_id := none, action := "failed",
         error := some ("GOV.UK API error: " ++ e), chunks_created := 0 }, db)
  | Except.ok gov_uk_doc =>
      if gov_uk_doc.body_html = "" then
        ({ url := url, success := false, document_id := none, action := "skipped",
           error := some "No content", chunks_created := 0 }, db)
      else if !parsed_doc.has_content || parsed_doc.word_count < 20 then
        ({ url := url, success := false, document_id := none, action := "skipped",
           error := some "Insufficient content", chunks_created := 0 }, db)
      else
        let content_hash := sha256 parsed_doc.full_text
        match get_document_by_url db gov_uk_doc.url with
        | some existing_doc =>
            if existing_doc.content_hash = content_hash then
              ({ url := url, success := true, document_id := some existing_doc.id,
                 action := "skipped", error := none, chunks_created := 0 }, db)
            else
              ingestCreatePath cfg content_hash "updated" url gov_uk_doc parsed_doc db
        | none =>
            ingestCreatePath cfg content_hash "created" url gov_uk_doc parsed_doc db

/-- `EnhancedIngestionPipeline.ingest_url` as the program executes it:
Python resolves the attribute `fetch` on `self.gov_uk_client` before any
call is made; `GovUKClient` defines no such attribute, so the lookup
raises `AttributeError` (no request is issued, `fetch_document` never
runs) and the generic `except Exception` handler records the failure.
Were the attribute present, the call's outcome (the `outcomeIfPresent`
parameter) would flow into the rest of the body. -/
def ingest_url_asWritten (cfg : LegalChunkingConfig) (sha256 : PyStr → String)
    (url : String) (outcomeIfPresent : Except String GovUKDocument)
    (parsed_doc : ParsedDocument) (db : PipelineDB) :
    EnhancedIngestionResult × PipelineDB :=
  if govUKClientAttrs.contains ("fetch") then
    ingest_url cfg sha256 url outcomeIfPresent parsed_doc db
  else
    ({ url := url, success := false, document_id := none, action := "failed",
       error := some "Processing error: GovUKClient object has no attribute fetch",
       chunks_created := 0 }, db)

/-- Run-level counters of `EnhancedPipelineResult` (the timing and
per-extractor counters not read by any verified property are omitted). -/
structure EnhancedPipelineResult where
  status : String
  documents_processed : Nat := 0
  documents_created : Nat := 0
  documents_updated : Nat := 0
  documents_skipped : Nat := 0
  documents_failed : Nat := 0
  chunks_created : Nat := 0
  errors : List (String × String) := []
  deriving Repr, DecidableEq

/-- The per-URL loop of `EnhancedIngestionPipeline.run`, threading the
`_error_count` circuit breaker (`max_errors`). -/
def runLoop (cfg : LegalChunkingConfig) (sha256 : PyStr → String) (max_errors : Nat) :
    List (String × Except String GovUKDocument × ParsedDocument) →
    PipelineDB → Nat → EnhancedPipelineResult → EnhancedPipelineResult × PipelineDB
  | [], db, _, res => (res, db)
  | (url, fetched, parsed) :: rest, db, error_count, res =>
      if max_errors ≤ error_count then (res, db)
      else
        let step := ingest_url cfg sha256 url fetched parsed db
        let r := step.1
        let res₁ := { res with documents_processed := res.documents_processed + 1 }
        if r.success then
          let res₂ :=
            { res₁ with
              documents_created := res₁.documents_created + (if r.action = "created" then 1 else 0),
              documents_updated := res₁.documents_updated + (if r.action = "updated" then 1 else 0),
              documents_skipped := res₁.documents_skipped + (if r.action = "skipped" then 1 else 0),
              chunks_created := res₁.chunks_created + r.chunks_created }
          runLoop cfg sha256 max_errors rest step.2 error_count res₂
        else
          let res₂ :=
            { res₁ with
              documents_failed := res₁.documents_failed + 1,
              errors := res₁.errors ++
                (match r.error with | some e => [(url, e)] | none => []) }
          runLoop cfg sha256 max_errors rest step.2 (error_count + 1) res₂

/-- `EnhancedIngestionPipeline.run`. -/
def pipelineRun (cfg : LegalChunkingConfig) (sha256 : PyStr → String)
    (max_errors : Nat)
    (inputs : List (String × Except String GovUKDocument × ParsedDocument))
    (db : PipelineDB) : EnhancedPipelineResult × PipelineDB :=
  let out := runLoop cfg sha256 max_errors inputs db 0 { status := "running" }
  ({ out.1 with status := "completed" }, out.2)

/-! ## Condition extractor
(`ConditionExtractor`,
`backend/app/services/ingestion/extractors/condition_extractor.py`) -/

/-- A matcher with one capture group: candidate
`(end, group span)` pairs in backtracking priority order. -/
def CMatcher := PyStr → Nat → List (Nat × Option (Nat × Nat))

/-- Lead-in, capture group, tail. -/
def withGroup (pre grp tail : Matcher) : CMatcher := fun s p =>
  (pre s p).flatMap (fun q => (grp s q).flatMap (fun g =>
    (tail s g).map (fun e => (e, some (q, g)))))

/-- Lead-in, OPTIONAL capture group, tail (the groupless branch tried
after all group branches, as the greedy `(...)?` does). -/
def withOptGroup (pre grp tail : Matcher) : CMatcher := fun s p =>
  (pre s p).flatMap (fun q =>
    ((grp s q).flatMap (fun g => (tail s g).map (fun e => (e, some (q, g)))))
      ++ ((tail s q).map (fun e => (e, none))))

/-- A pattern without a capture group (`lastindex` is `None`). -/
def noGroup (m : Matcher) : CMatcher := fun s p =>
  (m s p).map (fun e => (e, none))

def isColonOrWs (c : Char) : Bool := c = ':' || isPySpace c

/-- A case-insensitive word `[a-z]+`. -/
def wordCI : Matcher := mPlusGreedy isAlphaCI

/-- The captured subject `[a-z]+(?:\s+[a-z]+){0,n}`. -/
def groupWords (n : Nat) : Matcher := mSeq wordCI (mRepAtMost (mSeq wsPlus wordCI) n)

/-- `(?:you\'?re?|you\s+are)` (the first alternative is the literal
`you`, an optional apostrophe, `r`, an optional `e`). -/
def youReAlt : Matcher :=
  mAlt (mSeq (mLitCI "you") (mSeq (mOpt (mChar (· = '\''))) (mSeq (mLitCI "r") (mOpt (mLitCI "e")))))
    (mSeq (mLitCI "you") (mSeq wsPlus (mLitCI "are")))

/-- Pattern 1 of `CONDITION_START_PATTERNS`:
`you\s+(?:must|should|need\s+to)\s+(subject)\s+if[:\s]+`. -/
def condPat1 : CMatcher :=
  withGroup
    (mSeq (mLitCI "you") (mSeq wsPlus (mSeq (mAltList
        [mLitCI "must", mLitCI "should", mSeq (mLitCI "need") (mSeq wsPlus (mLitCI "to"))])
      wsPlus)))
    (groupWords 5)
    (mSeq wsPlus (mSeq (mLitCI "if") (mPlusGreedy isColonOrWs)))

/-- Pattern 2: `you\s+(?:can(?:not)?|cannot)\s+(subject)\s+(?:if|unless)[:\s]+`. -/
def condPat2 : CMatcher :=
  withGroup
    (mSeq (mLitCI "you") (mSeq wsPlus (mSeq (mAltList
        [mSeq (mLitCI "can") (mOpt (mLitCI "not")), mLitCI "cannot"])
      wsPlus)))
    (groupWords 5)
    (mSeq wsPlus (mSeq (mAltList [mLitCI "if", mLitCI "unless"]) (mPlusGreedy isColonOrWs)))

/-- Pattern 3:
`(?:you\'?re?|you\s+are)\s+(?:only\s+)?(?:eligible|entitled)\s+(?:for\s+)?(subject)?\s*if[:\s]+`. -/
def condPat3 : CMatcher :=
  withOptGroup
    (mSeq youReAlt (mSeq wsPlus (mSeq (mOpt (mSeq (mLitCI "only") wsPlus))
      (mSeq (mAltList [mLitCI "eligible", mLitCI "entitled"])
        (mSeq wsPlus (mOpt (mSeq (mLitCI "for") wsPlus)))))))
    (groupWords 3)
    (mSeq wsStar (mSeq (mLitCI "if") (mPlusGreedy isColonOrWs)))

/-- Pattern 4:
`(?:you\'?re?|you\s+are)\s+exempt\s+(?:from\s+)?(subject)?\s*if[:\s]+`. -/
def condPat4 : CMatcher :=
  withOptGroup
    (mSeq youReAlt (mSeq wsPlus (mSeq (mLitCI "exempt")
      (mSeq wsPlus (mOpt (mSeq (mLitCI "from") wsPlus))))))
    (groupWords 3)
    (mSeq wsStar (mSeq (mLitCI "if") (mPlusGreedy isColonOrWs)))

/-- Pattern 5:
`(?:if\s+)?(?:any|all)\s+of\s+the\s+following\s+(?:conditions?\s+)?apply[:\s]+`
(no capture group). -/
def condPat5 : CMatcher :=
  noGroup
    (mSeq (mOpt (mSeq (mLitCI "if") wsPlus))
      (mSeq (mAltList [mLitCI "any", mLitCI "all"])
        (mSeq wsPlus (mSeq (mLitCI "of") (mSeq wsPlus (mSeq (mLitCI "the")
          (mSeq wsPlus (mSeq (mLitCI "following")
            (mSeq wsPlus (mSeq (mOpt (mSeq (mLitCI "condition") (mSeq (mOpt (mLitCI "s")) wsPlus)))
              (mSeq (mLitCI "apply") (mPlusGreedy isColonOrWs))))))))))))

/-- First (priority) captured match at a position. -/
def cFirst (m : CMatcher) (s : PyStr) (p : Nat) : Option (Nat × Option (Nat × Nat)) :=
  (m s p).head?

/-- `re.finditer` for a captured matcher: `(start, end, group span)`. -/
def cFinditerAux (m : CMatcher) (s : PyStr) :
    Nat → Nat → List (Nat × Nat × Option (Nat × Nat))
  | 0, _ => []
  | fuel + 1, p =>
      match cFirst m s p with
      | some (e, g) => (p, e, g) :: cFinditerAux m s fuel (max e (p + 1))
      | none => if s.length ≤ p then [] else cFinditerAux m s fuel (p + 1)

def cFinditer (m : CMatcher) (s : PyStr) : List (Nat × Nat × Option (Nat × Nat)) :=
  cFinditerAux m s (s.length + 2) 0

/-! ### Item patterns (`LETTER_ITEM_PATTERN` etc.)

Each pattern is anchored at a MULTILINE line start, skips whitespace to
an item marker, greedily consumes whitespace after the marker (falling
back one step when the text would end, as the engine does so that the
lazy body `(.+?)` can take at least one character), and ends the body at
the first position where the lookahead — another marker at a line start,
or end of text — holds. -/

/-- Marker of `LETTER_ITEM_PATTERN`: `\(([a-z])\)`; yields the captured
letter and the position after the marker. -/
def letterMarker (s : PyStr) (q : Nat) : Option (PyStr × Nat) :=
  match s.get? q, s.get? (q + 1), s.get? (q + 2) with
  | some c₀, some c, some c₂ =>
      if c₀ = '(' && isLowerAZ c && c₂ = ')' then some ([c], q + 3) else none
  | _, _, _ => none

/-- Marker of `NUMBER_ITEM_PATTERN`: `(\d+)\.`. -/
def numberMarker (s : PyStr) (q : Nat) : Option (PyStr × Nat) :=
  let k := runLen isDigitC s q
  if k = 0 then none
  else if s.get? (q + k) = some '.' then some (pySlice s q (q + k), q + k + 1) else none

/-- Marker of `BULLET_ITEM_PATTERN`: `[•\-\*]` (id assigned later). -/
def bulletMarker (s : PyStr) (q : Nat) : Option (PyStr × Nat) :=
  match s.get? q with
  | some c => if c = '•' || c = '-' || c = '*' then some ([], q + 1) else none
  | none => none

/-- One item match at position `p` (must be a line start), as described
above.  Returns `((captured id, raw body), match end)`. -/
def itemMatchAt (marker : PyStr → Nat → Option (PyStr × Nat))
    (s : PyStr) (p : Nat) : Option ((PyStr × PyStr) × Nat) :=
  if (mLineStart s p).isEmpty then none
  else
    let q := p + runLen isPySpace s p
    match marker s q with
    | none => none
    | some (idStr, qm) =>
        if s.length ≤ qm then none
        else
          let r := runLen isPySpace s qm
          let bodyStart := qm + min r (s.length - qm - 1)
          let stopAt := fun (t : Nat) =>
            t = s.length ||
              (!(mLineStart s t).isEmpty && (marker s (t + runLen isPySpace s t)).isSome)
          match (List.range (s.length - bodyStart)).find?
              (fun k => stopAt (bodyStart + k + 1)) with
          | some k =>
              some ((idStr, pySlice s bodyStart (bodyStart + k + 1)), bodyStart + k + 1)
          | none => none

/-- `re.finditer` over an item pattern. -/
def itemFinditerAux (marker : PyStr → Nat → Option (PyStr × Nat)) (s : PyStr) :
    Nat → Nat → List (PyStr × PyStr)
  | 0, _ => []
  | fuel + 1, p =>
      match itemMatchAt marker s p with
      | some (item, e) => item :: itemFinditerAux marker s fuel (max e (p + 1))
      | none => if s.length ≤ p then [] else itemFinditerAux marker s fuel (p + 1)

def itemFinditer (marker : PyStr → Nat → Option (PyStr × Nat)) (s : PyStr) :
    List (PyStr × PyStr) :=
  itemFinditerAux marker s (s.length + 2) 0

/-! ### Variables, cleaning, operators, outcomes -/

/-- A variable record of `_extract_variables` (`context` is present only
for currency entries, as in the Python dicts). -/
structure ConditionVariable where
  vtype : String
  value : PyStr
  context : Option PyStr
  deriving Repr, DecidableEq

/-- One match of `BaseExtractor.GBP_PATTERN`
(`£(\d{1,3}(?:,\d{3})*(?:\.\d{2})?)`) at position `p`; returns the value
span end (= match end). -/
def gbpMatchAt (s : PyStr) (p : Nat) : Option Nat :=
  if s.get? p = some '£' then
    let d := min 3 (runLen isDigitC s (p + 1))
    if d = 0 then none
    else
      let rec commaReps (fuel t : Nat) : Nat :=
        match fuel with
        | 0 => t
        | fuel + 1 =>
            if s.get? t = some ',' && 3 ≤ runLen isDigitC s (t + 1) then
              commaReps fuel (t + 4)
            else t
      let t₁ := commaReps s.length (p + 1 + d)
      let t₂ :=
        if s.get? t₁ = some '.' && 2 ≤ runLen isDigitC s (t₁ + 1) then t₁ + 3 else t₁
      some t₂
  else none

/-- One match of `BaseExtractor.PERCENTAGE_PATTERN`
(`(\d+(?:\.\d+)?)\s*%`); returns `(group end, match end)`. -/
def pctMatchAt (s : PyStr) (p : Nat) : Option (Nat × Nat) :=
  let k := runLen isDigitC s p
  if k = 0 then none
  else
    let tryTail := fun (g : Nat) =>
      let w := runLen isPySpace s g
      if s.get? (g + w) = some '%' then some (g, g + w + 1) else none
    let decLen := runLen isDigitC s (p + k + 1)
    let gCandidates :=
      if s.get? (p + k) = some '.' && 0 < decLen then [p + k + 1 + decLen, p + k]
      else [p + k]
    gCandidates.findSome? tryTail

/-- Generic fuelled scan emitting matches of a positional matcher. -/
def scanMatches {α : Type} (step : Nat → Option (α × Nat)) (len : Nat) :
    Nat → Nat → List α
  | 0, _ => []
  | fuel + 1, p =>
      match step p with
      | some (a, e) => a :: scanMatches step len fuel (max e (p + 1))
      | none => if len ≤ p then [] else scanMatches step len fuel (p + 1)

/-- `ConditionExtractor._extract_variables`. -/
def extract_variables (text : PyStr) : List ConditionVariable :=
  let gbp := scanMatches
    (fun p => (gbpMatchAt text p).map (fun e =>
      (({ vtype := "currency_gbp", value := pySlice text (p + 1) e,
          context := some (pySlice text (p - 20) (e + 20)) } : ConditionVariable), e)))
    text.length (text.length + 2) 0
  let pct := scanMatches
    (fun p => (pctMatchAt text p).map (fun ge =>
      (({ vtype := "percentage", value := pySlice text p ge.1,
          context := none } : ConditionVariable), ge.2)))
    text.length (text.length + 2) 0
  gbp ++ pct

/-- Whitespace-run collapsing of `BaseExtractor.clean_text`
(`re.sub(r"\s+", " ", text)`), tracking whether the previous character
was whitespace. -/
def collapseWsAux : List Char → Bool → List Char
  | [], _ => []
  | c :: rest, prevWs =>
      if isPySpace c then
        if prevWs then collapseWsAux rest true else ' ' :: collapseWsAux rest true
      else c :: collapseWsAux rest false

/-- `BaseExtractor.clean_text`. -/
def clean_text (text : PyStr) : PyStr :=
  if text = [] then [] else pyStrip (collapseWsAux text false)

/-- A condition dict of `_extract_conditions` (the Python key named
like the Lean keyword is carried as `vars`). -/
structure ConditionItem where
  id : PyStr
  text : PyStr
  vars : List ConditionVariable
  deriving Repr, DecidableEq

/-- `ConditionExtractor._extract_conditions`: letter items first, then
numbered, then bulleted (ids `a`, `b`, … assigned by position). -/
def extract_conditions (text : PyStr) : List ConditionItem :=
  let letter_matches := itemFinditer letterMarker text
  if letter_matches ≠ [] then
    letter_matches.map (fun it =>
      { id := it.1, text := clean_text it.2, vars := extract_variables it.2 })
  else
    let number_matches := itemFinditer numberMarker text
    if number_matches ≠ [] then
      number_matches.map (fun it =>
        { id := it.1, text := clean_text it.2, vars := extract_variables it.2 })
    else
      let bullet_matches := itemFinditer bulletMarker text
      (bullet_matches.enum).map (fun p =>
        { id := [Char.ofNat ('a'.toNat + p.1)], text := clean_text p.2.2,
          vars := extract_variables p.2.2 })

def OR_INDICATORS : List String := ["any of", "one of", "or", "either"]
def AND_INDICATORS : List String := ["all of", "each of", "and", "both"]

/-- `ConditionExtractor._determine_logical_operator`. -/
def determine_logical_operator (intro_text : PyStr) : String :=
  let intro_lower := lowerStr intro_text
  if OR_INDICATORS.any (fun i => pyContains intro_lower i.toList) then "OR"
  else if AND_INDICATORS.any (fun i => pyContains intro_lower i.toList) then "AND"
  else "OR"

/-- First match group of `you\s+(?:must|should)\s+(...)` /
`you\s+(?:can)\s+(...)` (the outcome patterns of `_determine_outcome`). -/
def outcomeSearch (modal : Matcher) (s : PyStr) : Option PyStr :=
  let m : CMatcher := withGroup (mSeq (mLitCI "you") (mSeq wsPlus (mSeq modal wsPlus)))
    (groupWords 3) mEps
  ((cFinditer m s).head?).bind (fun t => t.2.2.map (fun g => pySlice s g.1 g.2))

/-- `ConditionExtractor._determine_outcome`. -/
def determine_outcome (intro_text : PyStr) (cond_type : String) : PyStr :=
  match outcomeSearch (mAltList [mLitCI "must", mLitCI "should"]) intro_text with
  | some g => "You must ".toList ++ g
  | none =>
      match outcomeSearch (mLitCI "can") intro_text with
      | some g => "You must ".toList ++ g
      | none =>
          if cond_type = "requirement" then "You must comply with this requirement".toList
          else if cond_type = "eligibility" then "You are eligible".toList
          else if cond_type = "exemption" then "You are exempt".toList
          else "Conditions apply".toList

/-- Python `str.title()` (uppercase a letter starting a letter run,
lowercase the rest). -/
def pyTitleAux : List Char → Bool → List Char
  | [], _ => []
  | c :: rest, prevAlpha =>
      (if isAlphaCI c then (if prevAlpha then lowerChar c else upperChar c) else c)
        :: pyTitleAux rest (isAlphaCI c)

def pyTitle (s : PyStr) : PyStr := pyTitleAux s false

/-- The record emitted for one condition list (`ExtractedConditionList`;
the `outcome_if_not_met` and `applies_to` fields, never set by the
extractor, are omitted). -/
structure ExtractedConditionList where
  condition_name : PyStr
  condition_type : String
  logical_operator : String
  conditions : List ConditionItem
  outcome_if_met : PyStr
  context_text : PyStr
  deriving Repr, DecidableEq

/-- The end-of-list patterns of `_extract_condition_list`. -/
def condEndPatterns : List Matcher :=
  [ mSeq (mLit "\n\n") (mLook (mChar isUpperAZ)),
    mLit "\n##",
    mSeq (mChar (· = '\n')) (mSeq (mPlusGreedy isDigitC) (mChar (· = '.'))) ]

/-- `ConditionExtractor._extract_condition_list` for a start-pattern
match with span `(start, endPos)` and captured subject `group`. -/
def extract_condition_list (start endPos : Nat) (group : Option PyStr)
    (full_text : PyStr) (cond_type name_hint : String) :
    Option ExtractedConditionList :=
  let start_pos := endPos
  let remaining := pySlice full_text start_pos (start_pos + 2000)
  let end_pos := condEndPatterns.foldl
    (fun cur pat =>
      match reSearch pat remaining with
      | some m => if 50 < m.1 then min cur m.1 else cur
      | none => cur)
    remaining.length
  let list_text := pyTake remaining end_pos
  let conditions := extract_conditions list_text
  if conditions = [] then none
  else
    let intro_text := lowerStr (pySlice full_text (start - 50) endPos)
    let logical_op := determine_logical_operator intro_text
    let subject :=
      match group with
      | some g => if g ≠ [] then g else name_hint.toList
      | none => name_hint.toList
    let condition_name :=
      pyTitle (cond_type.replace "_" " ").toList ++ " conditions for ".toList ++ subject
    let outcome := determine_outcome intro_text cond_type
    some { condition_name := condition_name,
           condition_type := cond_type,
           logical_operator := logical_op,
           conditions := conditions,
           outcome_if_met := outcome,
           context_text := pySlice full_text start (endPos + list_text.length) }

/-- The pattern table of `ConditionExtractor.CONDITION_START_PATTERNS`:
matcher, condition type, name hint. -/
def CONDITION_START_PATTERNS : List (CMatcher × String × String) :=
  [ (condPat1, "requirement", "must"),
    (condPat2, "eligibility", "can"),
    (condPat3, "eligibility", "eligible"),
    (condPat4, "exemption", "exempt"),
    (condPat5, "requirement", "following") ]

/-- `ConditionExtractor.extract` (the `items` of the result; lists with
fewer than 2 conditions are dropped). -/
def conditionExtract (text_content : PyStr) : List ExtractedConditionList :=
  if text_content = [] then []
  else
    CONDITION_START_PATTERNS.foldl
      (fun acc pat =>
        acc ++ (cFinditer pat.1 text_content).filterMap (fun m =>
          match extract_condition_list m.1 m.2.1
              (m.2.2.map (fun g => pySlice text_content g.1 g.2))
              text_content pat.2.1 pat.2.2 with
          | some condition_list =>
              if 2 ≤ condition_list.conditions.length then some condition_list else none
          | none => none))
      []

/-! ## Concrete instances used by the closed theorems -/

/-- The example text of the specification, literally (one line). -/
def c7TextSingleLine : PyStr :=
  ("You must register for VAT if any of the following apply: (a) your turnover exceeds £90,000 (b) you expect to exceed £90,000 in 30 days").toList

/-- The same text with each lettered item on its own line (the layout of
the repository's own extractor tests). -/
def c7TextMultiLine : PyStr :=
  ("You must register for VAT if any of the following apply:\n(a) your turnover exceeds £90,000\n(b) you expect to exceed £90,000 in 30 days").toList

/-- A section text containing one condition-list unit, surrounding
prose, and a paragraph break after the list. -/
def c4Text : PyStr :=
  ("Some introductory text about registration duties. You must register for VAT if any of the following apply:\n(a) your turnover exceeds £90,000\n(b) you expect to exceed £90,000 in 30 days\n\nAfter the list there is some trailing explanatory text that goes on for quite a while to force splitting into pieces.").toList

/-- Graph state for the resolution theorems: two chunks with all flags
down, one unresolved reference from chunk 1 targeting section
`VATREG02150`. -/
def c2db : GraphDB :=
  { chunks := [{ id := 1 }, { id := 2 }],
    refs := [{ id := 10, source_chunk_id := 1, reference_type := "see_also",
               reference_text := "VATREG02150",
               target_section_id := some "VATREG02150" }] }

/-- Graph state holding one RESOLVED reference. -/
def c5db : GraphDB :=
  { chunks := [{ id := 1 }, { id := 2 }],
    refs := [{ id := 10, source_chunk_id := 1, target_chunk_id := some 2,
               reference_type := "definition", reference_text := "X",
               is_resolved := true }] }

/-- An update request setting only `is_resolved = False`. -/
def c5upd : ChunkReferenceUpdate := { is_resolved := some false }

/-- A resolved, required-strength edge from chunk 1 to chunk 2. -/
def c3refs : List ChunkReference :=
  [{ id := 1, source_chunk_id := 1, target_chunk_id := some 2,
     reference_type := "definition", reference_strength := "required",
     reference_text := "x", is_resolved := true }]

def c1Envelope : GovUKDocument :=
  { url := "https://www.gov.uk/vat-registration", title := ("Register for VAT").toList,
    body_html := "<p>body</p>", document_type := "guide", schema_name := "guide" }

def c1Parsed : ParsedDocument :=
  { title := ("Register for VAT").toList, sections := [],
    full_text := ("some text").toList, has_content := true, word_count := 25 }

/-- Pipeline state already holding the document with hash `h0`. -/
def c1db : PipelineDB :=
  { documents := [{ id := 7, url := "https://www.gov.uk/vat-registration", content_hash := "h0" }],
    chunks := [{ id := 1, document_id := 7, content := ("old").toList }] }

/-- A stand-in for the injected sha256 whose value on every input is the
stored hash (the hash-equality scenario). -/
def constHash : PyStr → String := fun _ => "h0"

def resp404 : HttpResponse := { status_code := 404, text := "" }
def resp500 : HttpResponse := { status_code := 500, text := "boom" }

/-- A section whose full content (`## VAT\n\nToo short.`) has length 18,
below the default 200-character minimum. -/
def shortSec : ContentSection :=
  { heading := ("VAT").toList, level := 2, content := ("Too short.").toList,
    heading_path := ("VAT").toList }

def shortDoc : ParsedDocument :=
  { title := ("T").toList, sections := [shortSec],
    full_text := ("## VAT\n\nToo short.").toList, has_content := true, word_count := 3 }

/-! # Theorems -/

/-- C6: the citable-reference generator is a pure, deterministic function
of document title, section title, heading path, section id and paragraph
number — in particular independent of the unused `source_url` argument —
and produces `HMRC <manual name>, <section id>[, Para N]` when a section
id is present, and a GOV.UK/heading-path citation otherwise. -/
theorem C6_citable_reference_deterministic :
    (∀ t s h sid p u₁ u₂,
        generate_citable_reference t s h sid p u₁
          = generate_citable_reference t s h sid p u₂)
  ∧ (∀ t s h sidv p u,
        generate_citable_reference t s h (some sidv) p u
          = "HMRC " ++ infer_manual_name sidv ++ ", " ++ sidv
              ++ (if optStrTruthy p then ", Para " ++ p.getD "" else ""))
  ∧ (∀ t s h p u,
        generate_citable_reference t s h none p u
          = "GOV.UK"
              ++ (if h ≠ "" ∧ h ≠ t then ", " ++ h
                  else if s ≠ "" then ", " ++ s else "")
              ++ (if optStrTruthy p then ", Para " ++ p.getD "" else "")) := by
  refine ⟨fun t s h sid p u₁ u₂ => rfl, fun t s h sidv p u => ?_, fun t s h p u => ?_⟩
  · unfold generate_citable_reference
    by_cases hp : optStrTruthy p = true <;>
        simp [hp, String.intercalate, String.intercalate.go] <;>
      (apply String.ext; simp)
  · unfold generate_citable_reference
    by_cases hh : h ≠ "" ∧ h ≠ t
    · by_cases hp : optStrTruthy p = true <;>
          simp [hh, hp, String.intercalate, String.intercalate.go] <;>
        (apply String.ext; simp)
    · by_cases hs : s ≠ ""
      · by_cases hp : optStrTruthy p = true <;>
            simp [hh, hs, hp, String.intercalate, String.intercalate.go] <;>
          (apply String.ext; simp)
      · by_cases hp : optStrTruthy p = true <;>
            simp [hh, hs, hp, String.intercalate, String.intercalate.go] <;>
          (apply String.ext; simp)

/-- C9 (counterexample): the business-type classifier emits
`sole_trader` for the text `freelancer`, which contains exactly ONE
keyword of that label's set — refuting the claim that both classifiers
require at least 2 distinct keyword hits. -/
theorem C9_counterexample_single_keyword_business_type :
    identify_business_types "freelancer" = ["sole_trader"] ∧
    keywordHits ["sole trader", "self-employed", "self employed", "freelancer"]
      (strLower "freelancer") = 1 := by
  constructor <;> decide

/-- C9 (amended): the topic classifier emits a label exactly when at
least 2 distinct keywords of its set occur in the lowercased text, while
the business-type classifier emits a label as soon as ANY single keyword
of its set occurs. -/
theorem C9_keyword_voting_amended :
    (∀ (text topic : String),
        topic ∈ classify_topics text ↔
          ∃ kws, (topic, kws) ∈ TOPIC_KEYWORDS ∧ 2 ≤ keywordHits kws (strLower text))
  ∧ (∀ (text btype : String),
        btype ∈ identify_business_types text ↔
          ∃ kws, (btype, kws) ∈ BUSINESS_TYPE_KEYWORDS ∧
            ∃ kw ∈ kws, strContains (strLower text) kw = true) := by
  constructor
  · intro text topic
    unfold classify_topics
    simp only [List.mem_map, List.mem_filter, decide_eq_true_eq]
    constructor
    · rintro ⟨⟨t, kws⟩, ⟨hmem, hcount⟩, rfl⟩
      exact ⟨kws, hmem, hcount⟩
    · rintro ⟨kws, hmem, hcount⟩
      exact ⟨⟨topic, kws⟩, ⟨hmem, hcount⟩, rfl⟩
  · intro text btype
    unfold identify_business_types
    simp only [List.mem_map, List.mem_filter, List.any_eq_true]
    constructor
    · rintro ⟨⟨t, kws⟩, ⟨hmem, hany⟩, rfl⟩
      exact ⟨kws, hmem, hany⟩
    · rintro ⟨kws, hmem, hany⟩
      exact ⟨⟨btype, kws⟩, ⟨hmem, hany⟩, rfl⟩

/-- C10: a section whose full content (heading prefix included) is
shorter than the configured minimum chunk size produces no chunk at all,
and a document all of whose sections are that short produces an empty
chunk list — whole short sections are silently dropped. -/
theorem C10_short_sections_dropped :
    (∀ (cfg : LegalChunkingConfig) (sec : ContentSection) (start_index : Nat)
        (title : PyStr) (url : String),
        (sectionFullContent sec).length < cfg.min_chunk_size →
        chunk_section cfg sec start_index title url = [])
  ∧ (∀ (cfg : LegalChunkingConfig) (parsed : ParsedDocument) (url : String)
        (dt : Option PyStr),
        parsed.sections ≠ [] →
        (∀ sec ∈ parsed.sections, (sectionFullContent sec).length < cfg.min_chunk_size) →
        chunk_document cfg parsed url dt = []) := by
  have hsec : ∀ (cfg : LegalChunkingConfig) (sec : ContentSection) (start_index : Nat)
      (title : PyStr) (url : String),
      (sectionFullContent sec).length < cfg.min_chunk_size →
      chunk_section cfg sec start_index title url = [] := by
    intro cfg sec start_index title url h
    unfold chunk_section
    rw [if_pos h]
  refine ⟨hsec, ?_⟩
  intro cfg parsed url dt hne hall
  have hfold : ∀ (l : List ContentSection) (acc : List LegalChunk) (title : PyStr),
      (∀ sec ∈ l, (sectionFullContent sec).length < cfg.min_chunk_size) →
      l.foldl (fun acc sec => acc ++ chunk_section cfg sec acc.length title url) acc = acc := by
    intro l
    induction l with
    | nil => intro acc title _; rfl
    | cons sec rest ih =>
        intro acc title hl
        simp only [List.foldl_cons]
        rw [hsec cfg sec acc.length title url (hl sec (by simp)), List.append_nil]
        exact ih acc title (fun s hs => hl s (by simp [hs]))
  unfold chunk_document
  simp only [hne, if_false, ite_false]
  rw [hfold parsed.sections [] _ hall]
  rfl

/-- C10 witness: the short section (full content 18 characters, below
the default 200 minimum) yields no chunk, and the document made of it
yields an empty chunk list although its text is non-empty. -/
theorem C10_short_sections_dropped_witness :
    chunk_section {} shortSec 0 ("T").toList "u" = []
    ∧ chunk_document {} shortDoc "u" none = []
    ∧ shortDoc.full_text ≠ [] :=
  ⟨C10_short_sections_dropped.1 {} shortSec 0 ("T").toList "u" (by decide),
   C10_short_sections_dropped.2 {} shortDoc "u" none (by decide)
     (by intro sec hs
         have : sec = shortSec := by
           simpa [shortDoc] using hs
         rw [this]; decide),
   by decide⟩

/-- C1 (code bug): step 1 of `ingest_url` calls
`self.gov_uk_client.fetch(url)`, but `GovUKClient` defines no attribute
`fetch`, so every ingestion as written raises `AttributeError`, is
caught by the generic handler, and returns action `failed` with
`success = false` and an unchanged store — regardless of the stored
hash.  In particular the unchanged-hash skip branch is unreachable and
re-ingestion of unchanged content is never reported `skipped`. -/
theorem C1_skip_path_unreachable
    (cfg : LegalChunkingConfig) (sha256 : PyStr → String) (url : String)
    (outcomeIfPresent : Except String GovUKDocument)
    (parsed_doc : ParsedDocument) (db : PipelineDB) :
    govUKClientAttrs.contains ("fetch") = false
    ∧ (ingest_url_asWritten cfg sha256 url outcomeIfPresent parsed_doc db).1.action = "failed"
    ∧ (ingest_url_asWritten cfg sha256 url outcomeIfPresent parsed_doc db).1.action ≠ "skipped"
    ∧ (ingest_url_asWritten cfg sha256 url outcomeIfPresent parsed_doc db).1.success = false
    ∧ (ingest_url_asWritten cfg sha256 url outcomeIfPresent parsed_doc db).2 = db := by
  have h : govUKClientAttrs.contains ("fetch") = false := by decide
  have h2 : ¬ (("fetch" : String) ∈ govUKClientAttrs) := by decide
  refine ⟨h, ?_, ?_, ?_, ?_⟩ <;>
    simp [ingest_url_asWritten, h2]

/-- C8 (counterexample): a 404 from the content API is NOT reported as
skipped — the fetch raises the not-found error, the ingestion records
action `failed`, and the run counts the document as failed, not
skipped. -/
theorem C8_counterexample_404_counted_failed :
    fetch_document "/x" resp404 c1Envelope = Except.error "Document not found: /x"
    ∧ (ingest_url {} constHash "/x" (fetch_document "/x" resp404 c1Envelope) c1Parsed c1db).1.action = "failed"
    ∧ ¬ ((ingest_url {} constHash "/x" (fetch_document "/x" resp404 c1Envelope) c1Parsed c1db).1.action = "skipped")
    ∧ (pipelineRun {} constHash 50 [("/x", fetch_document "/x" resp404 c1Envelope, c1Parsed)] c1db).1.documents_failed = 1
    ∧ (pipelineRun {} constHash 50 [("/x", fetch_document "/x" resp404 c1Envelope, c1Parsed)] c1db).1.documents_skipped = 0 := by
  refine ⟨?_, by decide, by decide, by decide, by decide⟩
  unfold fetch_document
  rw [if_pos (by decide : resp404.status_code = 404)]
  exact congrArg Except.error (by decide)

/-- C8 (amended): a 404 raises the distinguished `Document not found`
fetch error and every other non-200 status raises an `API error`; in
both cases the pipeline catches the error and records the document as
failed (action `failed`, `success = false`, state unchanged), and the
run counts it in `documents_failed`. -/
theorem C8_fetch_error_amended
    (path : String) (resp : HttpResponse) (env : GovUKDocument)
    (cfg : LegalChunkingConfig) (sha : PyStr → String) (url : String)
    (parsed : ParsedDocument) (db : PipelineDB) :
    (resp.status_code = 404 →
      fetch_document path resp env = Except.error ("Document not found: " ++ path))
  ∧ (resp.status_code ≠ 404 → resp.status_code ≠ 200 →
      fetch_document path resp env
        = Except.error ("API error " ++ toString resp.status_code ++ ": "
            ++ String.mk (pyTake resp.text.toList 200)))
  ∧ (∀ e, (ingest_url cfg sha url (Except.error e) parsed db).1.action = "failed"
        ∧ (ingest_url cfg sha url (Except.error e) parsed db).1.success = false
        ∧ (ingest_url cfg sha url (Except.error e) parsed db).2 = db)
  ∧ (∀ e, (runLoop cfg sha 50 [(url, Except.error e, parsed)] db 0
        { status := "running" }).1.documents_failed = 1) := by
  refine ⟨fun h404 => ?_, fun hn404 hn200 => ?_, fun e => ⟨rfl, rfl, rfl⟩, fun e => ?_⟩
  · unfold fetch_document
    rw [if_pos h404]
  · unfold fetch_document
    rw [if_neg hn404, if_pos hn200]
  · rfl

/-- C8 amended witness at the concrete 404 and 500 responses. -/
theorem C8_fetch_error_amended_witness :
    fetch_document "/x" resp404 c1Envelope = Except.error "Document not found: /x"
    ∧ fetch_document "/x" resp500 c1Envelope
        = Except.error ("API error " ++ toString resp500.status_code ++ ": "
            ++ String.mk (pyTake resp500.text.toList 200)) :=
  ⟨by
     rw [(C8_fetch_error_amended "/x" resp404 c1Envelope {} constHash "/x" c1Parsed c1db).1 (by decide)]
     exact congrArg Except.error (by decide),
   (C8_fetch_error_amended "/x" resp500 c1Envelope {} constHash "/x" c1Parsed c1db).2.1
     (by decide) (by decide)⟩

set_option maxRecDepth 100000 in
set_option maxHeartbeats 4000000 in
/-- C7 (counterexample): on the specification's example text taken
literally (a single line), the condition extractor returns NO condition
list at all — the lettered-item pattern is anchored at line starts, so
`(a)`/`(b)` in the middle of a line are not items; in particular it does
not return exactly one list. -/
theorem C7_counterexample_single_line_yields_no_lists :
    conditionExtract c7TextSingleLine = []
    ∧ ¬ ((conditionExtract c7TextSingleLine).length = 1) := by
  exact ⟨by decide, by decide⟩

set_option maxRecDepth 100000 in
set_option maxHeartbeats 4000000 in
/-- C7 (amended): with each lettered item on its own line (the layout of
the repository's own tests), the extractor returns exactly TWO condition
lists — one per matching lead-in pattern (`you must … if` and
`any of the following apply`) — each containing exactly 2 conditions,
with `logical_operator = "OR"` and an outcome mentioning registration. -/
theorem C7_condition_extraction_amended :
    (conditionExtract c7TextMultiLine).length = 2
    ∧ (conditionExtract c7TextMultiLine).all
        (fun l => l.conditions.length = 2 && l.logical_operator = "OR"
          && l.condition_type = "requirement"
          && pyContains (lowerStr l.outcome_if_met) ("register").toList) = true := by
  exact ⟨by decide, by decide⟩

/-- C5 (counterexample): the generic `update_reference` applied to a
RESOLVED reference with an update that only sets `is_resolved = False`
yields a row with `is_resolved = false` while `target_chunk_id` is still
set — violating the invariant `is_resolved == (target_chunk_id is not
None)` and reverting a resolved reference to unresolved. -/
theorem C5_counterexample_update_reverts_resolution :
    ((update_reference c5db 10 c5upd).2.map (fun r => decide (refInvariant r))) = some false
    ∧ ((update_reference c5db 10 c5upd).2.map (fun r => (r.is_resolved, r.target_chunk_id)))
        = some (false, some 2)
    ∧ ((get_reference c5db 10).map (·.is_resolved)) = some true := by
  exact ⟨by decide, by decide, by decide⟩

/-- C5 (amended): the single and batch create operations yield rows
satisfying `is_resolved == (target_chunk_id is not None)` whenever their
input data does (as the schema defaults do), and the two resolve
operations preserve the invariant on every row and never revert a
resolved row to unresolved; the generic `update_reference` gives no such
guarantee (see the counterexample). -/
theorem C5_invariant_amended :
    (∀ (db : GraphDB) (newId : Nat) (rd : ChunkReferenceCreate),
        rd.is_resolved = rd.target_chunk_id.isSome →
        refInvariant (create_reference db newId rd).2
        ∧ ∀ r ∈ (create_reference db newId rd).1.refs, r ∈ db.refs ∨ refInvariant r)
  ∧ (∀ (db : GraphDB) (firstId : Nat) (rds : List ChunkReferenceCreate),
        (∀ rd ∈ rds, rd.is_resolved = rd.target_chunk_id.isSome) →
        ∀ r ∈ (create_references_batch db firstId rds).1.refs, r ∈ db.refs ∨ refInvariant r)
  ∧ (∀ (db : GraphDB) (rid tid : Nat),
        (∀ r ∈ db.refs, refInvariant r) →
        (∀ r' ∈ (resolve_reference db rid tid).1.refs, refInvariant r')
        ∧ (∀ r' ∈ (resolve_reference db rid tid).1.refs, ∃ r ∈ db.refs,
            r'.id = r.id ∧ (r.is_resolved = true → r'.is_resolved = true)))
  ∧ (∀ (db : GraphDB) (sid : String) (tid : Nat),
        (∀ r ∈ db.refs, refInvariant r) →
        (∀ r' ∈ (resolve_references_by_section db sid tid).1.refs, refInvariant r')
        ∧ (∀ r' ∈ (resolve_references_by_section db sid tid).1.refs, ∃ r ∈ db.refs,
            r'.id = r.id ∧ (r.is_resolved = true → r'.is_resolved = true))) := by
  refine ⟨?_, ?_, ?_, ?_⟩
  · intro db newId rd h
    constructor
    · simpa [create_reference, rowOfCreate, refInvariant] using h
    · intro r hr
      have hr' : r ∈ db.refs ∨ r = rowOfCreate newId rd := by
        simpa [create_reference] using hr
      rcases hr' with h₁ | rfl
      · exact Or.inl h₁
      · exact Or.inr (by simpa [rowOfCreate, refInvariant] using h)
  · intro db firstId rds hall r hr
    by_cases hemp : rds = []
    · subst hemp
      simp [create_references_batch] at hr
      exact Or.inl hr
    · have hr' : r ∈ db.refs ∨ ∃ a b, (a, b) ∈ rds.enum ∧ rowOfCreate (firstId + a) b = r := by
        simpa [create_references_batch, hemp] using hr
      rcases hr' with h₁ | ⟨a, b, hab, rfl⟩
      · exact Or.inl h₁
      · have hmem : b ∈ rds := List.getElem?_mem (List.mem_enum_iff_getElem?.mp hab)
        exact Or.inr (by simpa [rowOfCreate, refInvariant] using hall b hmem)
  · intro db rid tid hinv
    cases hfind : get_reference db rid with
    | none =>
        have heq : (resolve_reference db rid tid).1 = db := by
          unfold resolve_reference; rw [hfind]
        rw [heq]
        exact ⟨fun r' hr' => hinv r' hr', fun r' hr' => ⟨r', hr', rfl, fun h => h⟩⟩
    | some reference =>
        have hrefs : (resolve_reference db rid tid).1.refs
            = db.refs.map (fun r => if r.id = rid then
                { reference with target_chunk_id := some tid, is_resolved := true } else r) := by
          unfold resolve_reference; rw [hfind]
        have hrefid : reference.id = rid := by
          have hfind' : db.refs.find? (fun r => r.id = rid) = some reference := hfind
          have h := List.find?_some hfind'
          simpa using h
        constructor
        · intro r' hr'
          rw [hrefs] at hr'
          rcases List.mem_map.mp hr' with ⟨r, hr, rfl⟩
          by_cases hid : r.id = rid
          · rw [if_pos hid]; simp [refInvariant]
          · rw [if_neg hid]; exact hinv r hr
        · intro r' hr'
          rw [hrefs] at hr'
          rcases List.mem_map.mp hr' with ⟨r, hr, rfl⟩
          by_cases hid : r.id = rid
          · rw [if_pos hid]
            refine ⟨r, hr, ?_, fun _ => rfl⟩
            show reference.id = r.id
            rw [hrefid, hid]
          · rw [if_neg hid]
            exact ⟨r, hr, rfl, fun h => h⟩
  · intro db sid tid hinv
    have hrefs : (resolve_references_by_section db sid tid).1.refs
        = db.refs.map (fun r =>
            if (r.target_section_id = some sid && r.is_resolved = false) = true then
              { r with target_chunk_id := some tid, is_resolved := true }
            else r) := rfl
    constructor
    · intro r' hr'
      rw [hrefs] at hr'
      rcases List.mem_map.mp hr' with ⟨r, hr, rfl⟩
      by_cases hb : (r.target_section_id = some sid && r.is_resolved = false) = true
      · rw [if_pos hb]; simp [refInvariant]
      · rw [if_neg hb]; exact hinv r hr
    · intro r' hr'
      rw [hrefs] at hr'
      rcases List.mem_map.mp hr' with ⟨r, hr, rfl⟩
      by_cases hb : (r.target_section_id = some sid && r.is_resolved = false) = true
      · rw [if_pos hb]
        exact ⟨r, hr, rfl, fun _ => rfl⟩
      · rw [if_neg hb]
        exact ⟨r, hr, rfl, fun h => h⟩

/-- C5 amended witness: batch resolution on the concrete resolved state
preserves the invariant of the (already resolved) stored row. -/
theorem C5_invariant_amended_witness :
    refInvariant
      { id := 10, source_chunk_id := 1, target_chunk_id := some 2,
        reference_type := "definition", reference_strength := "recommended",
        reference_text := "X", reference_context := none, target_section_id := none,
        is_resolved := true } :=
  (C5_invariant_amended.2.2.2 c5db "S" 2 (by decide)).1 _ (by decide)

/-- C2 (counterexample): batch resolution by section resolves the
matching reference and raises the TARGET chunk's incoming flag, but it
does NOT raise the source chunk's `has_outgoing_references` flag — after
resolving the reference from chunk 1 to chunk 2, chunk 1's outgoing flag
is still false, refuting the claim that both flags are raised at
resolution time. -/
theorem C2_counterexample_resolution_leaves_outgoing_flag :
    (((resolve_references_by_section c2db "VATREG02150" 2).1.chunks.find?
        (fun c => c.id = 1)).map (·.has_outgoing_references)) = some false
    ∧ (resolve_references_by_section c2db "VATREG02150" 2).2 = 1
    ∧ (((resolve_references_by_section c2db "VATREG02150" 2).1.refs.find?
        (fun r => r.id = 10)).map (fun r => (r.is_resolved, r.target_chunk_id)))
        = some (true, some 2)
    ∧ (((resolve_references_by_section c2db "VATREG02150" 2).1.chunks.find?
        (fun c => c.id = 2)).map (·.has_incoming_references)) = some true := by
  exact ⟨by decide, by decide, by decide, by decide⟩

/-- C2 (amended): when resolution runs for a section code, every
currently-unresolved reference whose `target_section_id` equals the code
is updated in the batch to `resolved = true` with the new passage id as
target; already-resolved references are left unchanged; the target
passage's `has_incoming_references` flag is raised (when at least one
reference was resolved and the target row exists); and every chunk's
`has_outgoing_references` flag is left exactly as it was — that flag is
raised at reference-creation time, not at resolution time. -/
theorem C2_resolve_by_section_amended (db : GraphDB) (sid : String) (tid : Nat) :
    (∀ r ∈ db.refs, r.target_section_id = some sid → r.is_resolved = false →
      ({ r with target_chunk_id := some tid, is_resolved := true } : ChunkReference)
        ∈ (resolve_references_by_section db sid tid).1.refs)
  ∧ (∀ r ∈ db.refs, r.is_resolved = true →
      r ∈ (resolve_references_by_section db sid tid).1.refs)
  ∧ (∀ r' ∈ (resolve_references_by_section db sid tid).1.refs,
      r'.target_section_id = some sid → r'.is_resolved = true)
  ∧ (0 < (resolve_references_by_section db sid tid).2 →
      ∀ c ∈ db.chunks, c.id = tid →
        ({ c with has_incoming_references := true } : DocumentChunk)
          ∈ (resolve_references_by_section db sid tid).1.chunks)
  ∧ (∀ c' ∈ (resolve_references_by_section db sid tid).1.chunks,
      ∃ c ∈ db.chunks, c'.id = c.id
        ∧ c'.has_outgoing_references = c.has_outgoing_references) := by
  have hrefs : (resolve_references_by_section db sid tid).1.refs
      = db.refs.map (fun r =>
          if (r.target_section_id = some sid && r.is_resolved = false) = true then
            { r with target_chunk_id := some tid, is_resolved := true }
          else r) := rfl
  have hchunks : (resolve_references_by_section db sid tid).1.chunks
      = (if 0 < db.refs.countP
            (fun r => r.target_section_id = some sid && r.is_resolved = false) then
          setIncomingFlag db.chunks tid else db.chunks) := rfl
  have hcount : (resolve_references_by_section db sid tid).2
      = db.refs.countP
          (fun r => r.target_section_id = some sid && r.is_resolved = false) := rfl
  refine ⟨?_, ?_, ?_, ?_, ?_⟩
  · intro r hr hsid hunres
    rw [hrefs]
    refine List.mem_map.mpr ⟨r, hr, ?_⟩
    rw [if_pos (by simp [hsid, hunres])]
  · intro r hr hres
    rw [hrefs]
    refine List.mem_map.mpr ⟨r, hr, ?_⟩
    rw [if_neg (by simp [hres])]
  · intro r' hr'
    rw [hrefs] at hr'
    rcases List.mem_map.mp hr' with ⟨r, hr, rfl⟩
    by_cases hb : (r.target_section_id = some sid && r.is_resolved = false) = true
    · rw [if_pos hb]
      intro _; rfl
    · rw [if_neg hb]
      intro hsid
      cases hres : r.is_resolved with
      | true => rfl
      | false => exact absurd (by simp [hsid, hres]) hb
  · intro hpos c hc hcid
    rw [hchunks, if_pos (by rwa [hcount] at hpos)]
    unfold setIncomingFlag
    rw [if_pos (List.any_eq_true.mpr ⟨c, hc, by simp [hcid]⟩)]
    refine List.mem_map.mpr ⟨c, hc, ?_⟩
    rw [if_pos (by simp [hcid])]
  · intro c' hc'
    rw [hchunks] at hc'
    by_cases hp : 0 < db.refs.countP
        (fun r => r.target_section_id = some sid && r.is_resolved = false)
    · rw [if_pos hp] at hc'
      unfold setIncomingFlag at hc'
      by_cases hany : db.chunks.any (fun c => c.id = tid) = true
      · rw [if_pos hany] at hc'
        rcases List.mem_map.mp hc' with ⟨c, hc, rfl⟩
        by_cases hcid : c.id = tid
        · rw [if_pos (by simp [hcid])]
          exact ⟨c, hc, rfl, rfl⟩
        · rw [if_neg (by simp [hcid])]
          exact ⟨c, hc, rfl, rfl⟩
      · rw [if_neg hany] at hc'
        exact ⟨c', hc', rfl, rfl⟩
    · rw [if_neg hp] at hc'
      exact ⟨c', hc', rfl, rfl⟩

/-- C2 amended witness: on the concrete state, the unresolved reference
to `VATREG02150` is resolved to chunk 2 in the new state. -/
theorem C2_resolve_by_section_amended_witness :
    ({ id := 10, source_chunk_id := 1, target_chunk_id := some 2,
       reference_type := "see_also", reference_strength := "recommended",
       reference_text := "VATREG02150", reference_context := none,
       target_section_id := some "VATREG02150", is_resolved := true } : ChunkReference)
      ∈ (resolve_references_by_section c2db "VATREG02150" 2).1.refs :=
  (C2_resolve_by_section_amended c2db "VATREG02150" 2).1
    { id := 10, source_chunk_id := 1, reference_type := "see_also",
      reference_text := "VATREG02150", target_section_id := some "VATREG02150" }
    (by decide) (by decide) (by decide)

/-- Every element of `dedup xs` is an element of `xs`. -/
theorem dedup_mem_subset (xs : List Nat) : ∀ x ∈ dedup xs, x ∈ xs := by
  have hgen : ∀ (l acc : List Nat) (x : Nat),
      x ∈ l.foldl (fun acc x => if acc.contains x then acc else acc ++ [x]) acc →
      x ∈ acc ∨ x ∈ l := by
    intro l
    induction l with
    | nil => intro acc x hx; exact Or.inl hx
    | cons y ys ih =>
        intro acc x hx
        simp only [List.foldl_cons] at hx
        rcases ih _ x hx with h₁ | h₂
        · by_cases hc : acc.contains y = true
          · rw [if_pos hc] at h₁
            exact Or.inl h₁
          · rw [if_neg hc] at h₁
            rcases List.mem_append.mp h₁ with h | h
            · exact Or.inl h
            · simp at h
              exact Or.inr (by simp [h])
        · exact Or.inr (by simp [h₂])
  intro x hx
  rcases hgen xs [] x hx with h | h
  · simp at h
  · exact h

/-- The inner loop of `expand_references` never grows the accumulated id
set beyond `max_total` when entered strictly below it. -/
theorem expandInner_length_le (mt : Nat) :
    ∀ (qrefs : List ChunkReference) (all nw : List Nat) (acc : List ChunkReference),
      all.length < mt → (expandInner mt qrefs all nw acc).1.length ≤ mt := by
  intro qrefs
  induction qrefs with
  | nil => intro all nw acc h; exact Nat.le_of_lt h
  | cons r rest ih =>
      intro all nw acc h
      unfold expandInner
      cases r.target_chunk_id with
      | none => exact ih all nw acc h
      | some t =>
          dsimp only
          by_cases hc : all.contains t = true
          · rw [if_pos hc]
            exact ih all nw acc h
          · rw [if_neg hc]
            by_cases hbrk : mt ≤ (all ++ [t]).length
            · rw [if_pos hbrk]
              simpa using h
            · rw [if_neg hbrk]
              exact ih _ _ _ (Nat.lt_of_not_le hbrk)

/-- Every id accumulated by the inner loop is an old id or the target of
one of the scanned references. -/
theorem expandInner_mem_provenance (mt : Nat) :
    ∀ (qrefs : List ChunkReference) (all nw : List Nat) (acc : List ChunkReference)
      (x : Nat), x ∈ (expandInner mt qrefs all nw acc).1 →
      x ∈ all ∨ ∃ r ∈ qrefs, r.target_chunk_id = some x := by
  intro qrefs
  induction qrefs with
  | nil => intro all nw acc x hx; exact Or.inl hx
  | cons r rest ih =>
      intro all nw acc x hx
      unfold expandInner at hx
      cases htc : r.target_chunk_id with
      | none =>
          rw [htc] at hx
          rcases ih all nw acc x hx with h | ⟨r', hr', ht⟩
          · exact Or.inl h
          · exact Or.inr ⟨r', List.mem_cons_of_mem _ hr', ht⟩
      | some t =>
          rw [htc] at hx
          dsimp only at hx
          by_cases hc : all.contains t = true
          · rw [if_pos hc] at hx
            rcases ih all nw acc x hx with h | ⟨r', hr', ht⟩
            · exact Or.inl h
            · exact Or.inr ⟨r', List.mem_cons_of_mem _ hr', ht⟩
          · rw [if_neg hc] at hx
            by_cases hbrk : mt ≤ (all ++ [t]).length
            · rw [if_pos hbrk] at hx
              rcases List.mem_append.mp hx with h | h
              · exact Or.inl h
              · simp at h
                exact Or.inr ⟨r, List.mem_cons_self r rest, by rw [htc, h]⟩
            · rw [if_neg hbrk] at hx
              rcases ih _ _ _ x hx with h | ⟨r', hr', ht⟩
              · rcases List.mem_append.mp h with h' | h'
                · exact Or.inl h'
                · simp at h'
                  exact Or.inr ⟨r, List.mem_cons_self r rest, by rw [htc, h']⟩
              · exact Or.inr ⟨r', List.mem_cons_of_mem _ hr', ht⟩

/-- Same provenance for the per-hop new-id list (entered empty). -/
theorem expandInner_newIds_provenance (mt : Nat) :
    ∀ (qrefs : List ChunkReference) (all nw : List Nat) (acc : List ChunkReference)
      (x : Nat), x ∈ (expandInner mt qrefs all nw acc).2.1 →
      x ∈ nw ∨ ∃ r ∈ qrefs, r.target_chunk_id = some x := by
  intro qrefs
  induction qrefs with
  | nil => intro all nw acc x hx; exact Or.inl hx
  | cons r rest ih =>
      intro all nw acc x hx
      unfold expandInner at hx
      cases htc : r.target_chunk_id with
      | none =>
          rw [htc] at hx
          rcases ih all nw acc x hx with h | ⟨r', hr', ht⟩
          · exact Or.inl h
          · exact Or.inr ⟨r', List.mem_cons_of_mem _ hr', ht⟩
      | some t =>
          rw [htc] at hx
          dsimp only at hx
          by_cases hc : all.contains t = true
          · rw [if_pos hc] at hx
            rcases ih all nw acc x hx with h | ⟨r', hr', ht⟩
            · exact Or.inl h
            · exact Or.inr ⟨r', List.mem_cons_of_mem _ hr', ht⟩
          · rw [if_neg hc] at hx
            by_cases hbrk : mt ≤ (all ++ [t]).length
            · rw [if_pos hbrk] at hx
              rcases List.mem_append.mp hx with h | h
              · exact Or.inl h
              · simp at h
                exact Or.inr ⟨r, List.mem_cons_self r rest, by rw [htc, h]⟩
            · rw [if_neg hbrk] at hx
              rcases ih _ _ _ x hx with h | ⟨r', hr', ht⟩
              · rcases List.mem_append.mp h with h' | h'
                · exact Or.inl h'
                · simp at h'
                  exact Or.inr ⟨r, List.mem_cons_self r rest, by rw [htc, h']⟩
              · exact Or.inr ⟨r', List.mem_cons_of_mem _ hr', ht⟩

/-- The outer loop never returns more ids than
`max max_total (initial id-set size)`. -/
theorem expandLoop_length_le (refs : List ChunkReference) (filt : List String)
    (mt : Nat) :
    ∀ (fuel : Nat) (all current : List Nat) (acc : List ChunkReference),
      (expandLoop refs filt mt fuel all current acc).1.length ≤ max mt all.length := by
  intro fuel
  induction fuel with
  | zero => intro all current acc; exact Nat.le_max_right _ _
  | succ d ih =>
      intro all current acc
      unfold expandLoop
      by_cases hfull : mt ≤ all.length
      · rw [if_pos hfull]
        exact Nat.le_max_right _ _
      · rw [if_neg hfull]
        have hlt : all.length < mt := Nat.lt_of_not_le hfull
        have hinner := expandInner_length_le mt
          (refs.filter (fun r => current.contains r.source_chunk_id && r.is_resolved
            && filt.contains r.reference_strength)) all [] acc hlt
        by_cases hnw : (expandInner mt
            (refs.filter (fun r => current.contains r.source_chunk_id && r.is_resolved
              && filt.contains r.reference_strength)) all [] acc).2.1 = []
        · rw [if_pos hnw]
          exact Nat.le_trans hinner (Nat.le_max_left _ _)
        · rw [if_neg hnw]
          refine Nat.le_trans (ih _ _ _) ?_
          have : max mt (expandInner mt
              (refs.filter (fun r => current.contains r.source_chunk_id && r.is_resolved
                && filt.contains r.reference_strength)) all [] acc).1.length = mt :=
            Nat.max_eq_left hinner
          rw [this]
          exact Nat.le_max_left _ _

/-- Every id returned by the outer loop is reachable within the
remaining fuel, given reachability bounds on the entry sets. -/
theorem expandLoop_reach (refs : List ChunkReference) (filt : List String)
    (mt : Nat) (seeds : List Nat) :
    ∀ (fuel : Nat) (all current : List Nat) (acc : List ChunkReference) (d₀ : Nat),
      (∀ x ∈ all, ∃ n, n ≤ d₀ ∧ Reach refs filt seeds x n) →
      (∀ x ∈ current, ∃ n, n ≤ d₀ ∧ Reach refs filt seeds x n) →
      ∀ x ∈ (expandLoop refs filt mt fuel all current acc).1,
        ∃ n, n ≤ d₀ + fuel ∧ Reach refs filt seeds x n := by
  intro fuel
  induction fuel with
  | zero =>
      intro all current acc d₀ hall hcur x hx
      rcases hall x hx with ⟨n, hn, hr⟩
      exact ⟨n, by omega, hr⟩
  | succ d ih =>
      intro all current acc d₀ hall hcur x hx
      unfold expandLoop at hx
      by_cases hfull : mt ≤ all.length
      · rw [if_pos hfull] at hx
        rcases hall x hx with ⟨n, hn, hr⟩
        exact ⟨n, by omega, hr⟩
      · rw [if_neg hfull] at hx
        set qrefs := refs.filter (fun r => current.contains r.source_chunk_id
          && r.is_resolved && filt.contains r.reference_strength) with hq
        have hqprop : ∀ r ∈ qrefs, r ∈ refs ∧ r.source_chunk_id ∈ current
            ∧ r.is_resolved = true ∧ r.reference_strength ∈ filt := by
          intro r hr
          have hmem := List.mem_filter.mp (hq ▸ hr)
          refine ⟨hmem.1, ?_, ?_, ?_⟩
          · have h := hmem.2
            simp only [Bool.and_eq_true] at h
            exact List.mem_of_elem_eq_true h.1.1
          · have h := hmem.2
            simp only [Bool.and_eq_true] at h
            exact h.1.2
          · have h := hmem.2
            simp only [Bool.and_eq_true] at h
            exact List.mem_of_elem_eq_true h.2
        have hstep : ∀ y, (∃ r ∈ qrefs, r.target_chunk_id = some y) →
            ∃ n, n ≤ d₀ + 1 ∧ Reach refs filt seeds y n := by
          rintro y ⟨r, hrq, hrt⟩
          rcases hqprop r hrq with ⟨hrr, hrs, hres, hstr⟩
          rcases hcur _ hrs with ⟨n, hn, hreach⟩
          exact ⟨n + 1, by omega, Reach.step hreach hrr rfl hres hstr hrt⟩
        have hall' : ∀ y ∈ (expandInner mt qrefs all [] acc).1,
            ∃ n, n ≤ d₀ + 1 ∧ Reach refs filt seeds y n := by
          intro y hy
          rcases expandInner_mem_provenance mt qrefs all [] acc y hy with h | h
          · rcases hall y h with ⟨n, hn, hr⟩
            exact ⟨n, by omega, hr⟩
          · exact hstep y h
        have hnew' : ∀ y ∈ (expandInner mt qrefs all [] acc).2.1,
            ∃ n, n ≤ d₀ + 1 ∧ Reach refs filt seeds y n := by
          intro y hy
          rcases expandInner_newIds_provenance mt qrefs all [] acc y hy with h | h
          · simp at h
          · exact hstep y h
        by_cases hnw : (expandInner mt qrefs all [] acc).2.1 = []
        · rw [if_pos hnw] at hx
          rcases hall' x hx with ⟨n, hn, hr⟩
          exact ⟨n, by omega, hr⟩
        · rw [if_neg hnw] at hx
          rcases ih _ _ _ (d₀ + 1) hall' hnew' x hx with ⟨n, hn, hr⟩
          exact ⟨n, by omega, hr⟩

/-- C3 (counterexample): with three distinct seed ids and
`max_total = 2`, the expansion returns all three seeds — more than
`max_total` — because the seed set is accumulated before the cap is
checked. -/
theorem C3_counterexample_expansion_exceeds_max_total :
    expand_references [] [1, 2, 3] 1 ["required"] 2 = ([1, 2, 3], [])
    ∧ ¬ ((expand_references [] [1, 2, 3] 1 ["required"] 2).1.length ≤ 2) := by
  exact ⟨by decide, by decide⟩

/-- C3 (amended): the expansion returns at most
`max (max_total, number of distinct seed ids)` passage ids (so at most
`max_total` whenever the seeds already fit the cap), and every returned
id is reachable from the seeds in at most `max_depth` hops following
only resolved references whose strength is in the filter. -/
theorem C3_expand_bounds_amended (refs : List ChunkReference) (chunk_ids : List Nat)
    (max_depth : Nat) (strength_filter : List String) (max_total : Nat) :
    (expand_references refs chunk_ids max_depth strength_filter max_total).1.length
        ≤ max max_total (dedup chunk_ids).length
  ∧ ∀ x ∈ (expand_references refs chunk_ids max_depth strength_filter max_total).1,
      ∃ n, n ≤ max_depth ∧ Reach refs strength_filter chunk_ids x n := by
  constructor
  · exact expandLoop_length_le refs strength_filter max_total max_depth
      (dedup chunk_ids) chunk_ids []
  · intro x hx
    have h := expandLoop_reach refs strength_filter max_total chunk_ids max_depth
      (dedup chunk_ids) chunk_ids [] 0
      (fun y hy => ⟨0, Nat.le_refl 0, Reach.seed (dedup_mem_subset chunk_ids y hy)⟩)
      (fun y hy => ⟨0, Nat.le_refl 0, Reach.seed hy⟩) x hx
    rcases h with ⟨n, hn, hr⟩
    exact ⟨n, by omega, hr⟩

/-- C3 amended witness: on one resolved required edge from chunk 1 to
chunk 2, the expansion from seed 1 stays within the bound and chunk 2 is
reached within one hop. -/
theorem C3_expand_bounds_amended_witness :
    (expand_references c3refs [1] 1 ["required", "recommended"] 10).1.length
        ≤ max 10 (dedup [1]).length
    ∧ (∃ n, n ≤ 1 ∧ Reach c3refs ["required", "recommended"] [1] 2 n) :=
  ⟨(C3_expand_bounds_amended c3refs [1] 1 ["required", "recommended"] 10).1,
   (C3_expand_bounds_amended c3refs [1] 1 ["required", "recommended"] 10).2 2 (by decide)⟩

/-- Stripping is an infix of the original string. -/
theorem pyStrip_isInfix (s : PyStr) : pyStrip s <:+: s := by
  unfold pyStrip
  have h₁ : (s.dropWhile isPySpace) <:+ s := List.dropWhile_suffix _
  obtain ⟨w, hw⟩ :
      ((s.dropWhile isPySpace).reverse.dropWhile isPySpace)
        <:+ (s.dropWhile isPySpace).reverse := List.dropWhile_suffix _
  have hpre : ((s.dropWhile isPySpace).reverse.dropWhile isPySpace).reverse
      <+: (s.dropWhile isPySpace) := by
    refine ⟨w.reverse, ?_⟩
    rw [← List.reverse_append, hw, List.reverse_reverse]
  exact hpre.isInfix.trans h₁.isInfix

/-- A Python slice is an infix of the original string. -/
theorem pySlice_isInfix (s : PyStr) (a b : Nat) : pySlice s a b <:+: s :=
  (List.take_prefix _ _).isInfix.trans (List.drop_suffix _ _).isInfix

/-- Every element of a joined list occurs contiguously in the join. -/
theorem mem_pyJoin_isInfix (sep : PyStr) :
    ∀ (l : List PyStr), ∀ c ∈ l, c <:+: pyJoin sep l := by
  intro l
  induction l with
  | nil => intro c hc; exact absurd hc (List.not_mem_nil c)
  | cons x xs ih =>
      intro c hc
      cases xs with
      | nil =>
          have : c = x := by simpa using hc
          subst this
          exact List.infix_rfl
      | cons y ys =>
          rcases List.mem_cons.mp hc with rfl | hmem
          · show c <:+: c ++ sep ++ pyJoin sep (y :: ys)
            exact ((List.prefix_append c sep).trans
              (List.prefix_append (c ++ sep) (pyJoin sep (y :: ys)))).isInfix
          · show c <:+: x ++ sep ++ pyJoin sep (y :: ys)
            exact (ih c hmem).trans
              (List.suffix_append (x ++ sep) (pyJoin sep (y :: ys))).isInfix

/-- The head surviving a `dropWhile` fails the predicate. -/
theorem dropWhile_head?_not (p : Char → Bool) :
    ∀ (l : List Char) (x : Char), (l.dropWhile p).head? = some x → p x = false := by
  intro l
  induction l with
  | nil => intro x h; simp [List.dropWhile] at h
  | cons c cs ih =>
      intro x h
      rw [List.dropWhile_cons] at h
      by_cases hc : p c = true
      · rw [if_pos hc] at h
        exact ih x h
      · rw [if_neg hc] at h
        have hcx : c = x := by simpa using h
        subst hcx
        cases hpc : p c with
        | false => rfl
        | true => exact absurd hpc hc

/-- If the stripped string is empty, the string is all whitespace. -/
theorem all_ws_of_pyStrip_eq_nil {s : PyStr} (h : pyStrip s = []) :
    ∀ c ∈ s, isPySpace c = true := by
  unfold pyStrip at h
  have h₁ : (s.dropWhile isPySpace).reverse.dropWhile isPySpace = [] :=
    List.reverse_eq_nil_iff.mp h
  have h₂ : ∀ c ∈ (s.dropWhile isPySpace).reverse, isPySpace c = true :=
    List.dropWhile_eq_nil_iff.mp h₁
  intro c hc
  rw [← List.takeWhile_append_dropWhile isPySpace s] at hc
  rcases List.mem_append.mp hc with hm | hm
  · exact List.mem_takeWhile_imp hm
  · exact h₂ c (List.mem_reverse.mpr hm)

/-- A non-empty stripped string contains a non-whitespace character. -/
theorem exists_nonws_of_pyStrip_ne_nil {s : PyStr} (h : pyStrip s ≠ []) :
    ∃ c ∈ pyStrip s, isPySpace c = false := by
  rcases hwc : (s.dropWhile isPySpace).reverse.dropWhile isPySpace with _ | ⟨a, as⟩
  · exfalso
    apply h
    unfold pyStrip
    rw [hwc]
    rfl
  · have hh : ((s.dropWhile isPySpace).reverse.dropWhile isPySpace).head? = some a := by
      rw [hwc]; rfl
    have hpa := dropWhile_head?_not isPySpace (s.dropWhile isPySpace).reverse a hh
    refine ⟨a, ?_, hpa⟩
    show a ∈ pyStrip s
    unfold pyStrip
    rw [hwc]
    simp

/-- A piece containing a string with a non-whitespace character is not
dropped by the whitespace filter. -/
theorem pyStrip_ne_nil_of_contained {u p : PyStr} (hu : ∃ c ∈ u, isPySpace c = false)
    (hinf : u <:+: p) : pyStrip p ≠ [] := by
  intro hnil
  rcases hu with ⟨c, hc, hcf⟩
  have := all_ws_of_pyStrip_eq_nil hnil c (hinf.subset hc)
  rw [this] at hcf
  cases hcf

theorem holdsIn_append_cur {u : PyStr} {pieces cur : List PyStr} (cs : List PyStr)
    (h : HoldsIn u pieces cur) : HoldsIn u pieces (cur ++ cs) := by
  rcases h with hp | ⟨c, hc, hic⟩
  · exact Or.inl hp
  · exact Or.inr ⟨c, List.mem_append.mpr (Or.inl hc), hic⟩

/-- Flushing the current chunk into a joined piece keeps the unit inside
an emitted piece. -/
theorem holdsIn_flush {u : PyStr} {pieces cur : List PyStr}
    (h : HoldsIn u pieces cur) :
    ∃ p ∈ pieces ++ [pyJoin ['\n'] cur], u <:+: p := by
  rcases h with ⟨p, hp, hip⟩ | ⟨c, hc, hic⟩
  · exact ⟨p, List.mem_append.mpr (Or.inl hp), hip⟩
  · exact ⟨pyJoin ['\n'] cur, List.mem_append.mpr (Or.inr (by simp)),
      hic.trans (mem_pyJoin_isInfix ['\n'] cur c hc)⟩

/-- The conditional flush before an overflowing list keeps the unit. -/
theorem holdsIn_flushPieces {u : PyStr} {pieces cur : List PyStr}
    (h : HoldsIn u pieces cur) (tail : List PyStr) :
    ∃ p ∈ (if cur ≠ [] then pieces ++ [pyJoin ['\n'] cur] else pieces) ++ tail,
      u <:+: p := by
  by_cases hc : cur ≠ []
  · rw [if_pos hc]
    rcases holdsIn_flush h with ⟨p, hp, hip⟩
    exact ⟨p, List.mem_append.mpr (Or.inl hp), hip⟩
  · rw [if_neg hc]
    rcases h with ⟨p, hp, hip⟩ | ⟨c, hcc, _⟩
    · exact ⟨p, List.mem_append.mpr (Or.inl hp), hip⟩
    · exfalso
      rw [not_not.mp hc] at hcc
      exact absurd hcc (List.not_mem_nil c)

theorem holdsIn_stepBefore (text : PyStr) (ms : Nat) (st : SplitState) (ls : Nat)
    {u : PyStr} (h : HoldsIn u st.pieces st.cur) :
    HoldsIn u (stepBefore text ms st ls).pieces (stepBefore text ms st ls).cur := by
  unfold stepBefore
  by_cases h₁ : pyStrip (pySlice text st.pos ls) ≠ []
  · rw [if_pos h₁]
    by_cases h₂ : ms < st.size + (pyStrip (pySlice text st.pos ls)).length ∧ st.cur ≠ []
    · rw [if_pos h₂]
      rcases holdsIn_flush h with ⟨p, hp, hip⟩
      exact Or.inl ⟨p, hp, hip⟩
    · rw [if_neg h₂]
      exact holdsIn_append_cur _ h
  · rw [if_neg h₁]
    exact h

theorem holdsIn_stepList (text : PyStr) (ms cl : Nat) (st : SplitState) (ls le : Nat)
    {u : PyStr} (h : HoldsIn u st.pieces st.cur) :
    HoldsIn u (stepList text ms cl st ls le).pieces (stepList text ms cl st ls le).cur := by
  unfold stepList
  by_cases h₁ : ms < st.size + (pyStrip (pySlice text ls le)).length
  · rw [if_pos h₁]
    by_cases h₂ : cl < (pyStrip (pySlice text ls le)).length
    · rw [if_pos h₂]
      exact Or.inl (holdsIn_flushPieces h _)
    · rw [if_neg h₂]
      exact Or.inl (holdsIn_flushPieces h _)
  · rw [if_neg h₁]
    exact holdsIn_append_cur _ h

/-- Processing a unit whose stripped text fits the ceiling leaves that
text inside a piece or in the pending chunk. -/
theorem stepList_establishes (text : PyStr) (ms cl : Nat) (st : SplitState)
    (ls le : Nat) (hlen : (pyStrip (pySlice text ls le)).length ≤ cl) :
    HoldsIn (pyStrip (pySlice text ls le))
      (stepList text ms cl st ls le).pieces (stepList text ms cl st ls le).cur := by
  unfold stepList
  by_cases h₁ : ms < st.size + (pyStrip (pySlice text ls le)).length
  · rw [if_pos h₁, if_neg (not_lt.mpr hlen)]
    exact Or.inl ⟨pyStrip (pySlice text ls le),
      List.mem_append.mpr (Or.inr (by simp)), List.infix_rfl⟩
  · rw [if_neg h₁]
    exact Or.inr ⟨pyStrip (pySlice text ls le), by simp, List.infix_rfl⟩

theorem splitPLLoop_preserves (text : PyStr) (ms cl : Nat) {u : PyStr} :
    ∀ (bs : List (Nat × Nat)) (st : SplitState), HoldsIn u st.pieces st.cur →
      HoldsIn u (splitPLLoop text ms cl bs st).pieces (splitPLLoop text ms cl bs st).cur := by
  intro bs
  induction bs with
  | nil => intro st h; exact h
  | cons b rest ih =>
      intro st h
      exact ih (stepPL text ms cl st b)
        (holdsIn_stepList text ms cl _ b.1 b.2
          (holdsIn_stepBefore text ms st b.1 h))

/-- After the loop has processed a detected unit that fits the ceiling,
the unit's stripped text is held in a piece or in the pending chunk. -/
theorem splitPLLoop_establishes (text : PyStr) (ms cl ls le : Nat)
    (hlen : (pyStrip (pySlice text ls le)).length ≤ cl) :
    ∀ (bs : List (Nat × Nat)) (st : SplitState), (ls, le) ∈ bs →
      HoldsIn (pyStrip (pySlice text ls le))
        (splitPLLoop text ms cl bs st).pieces (splitPLLoop text ms cl bs st).cur := by
  intro bs
  induction bs with
  | nil => intro st h; exact absurd h (List.not_mem_nil _)
  | cons b rest ih =>
      intro st hmem
      rcases List.mem_cons.mp hmem with heq | hr
      · subst heq
        exact splitPLLoop_preserves text ms cl rest _
          (stepList_establishes text ms cl _ ls le hlen)
      · exact ih (stepPL text ms cl st b) hr

/-- Finalisation keeps every held unit with a non-whitespace character
inside some returned piece. -/
theorem finalizePL_keeps (text : PyStr) (ms : Nat) (st : SplitState) {u : PyStr}
    (hu : ∃ c ∈ u, isPySpace c = false) (h : HoldsIn u st.pieces st.cur) :
    ∃ p ∈ finalizePL text ms st, u <:+: p := by
  unfold finalizePL
  have hfil : ∀ (l : List PyStr), (∃ p ∈ l, u <:+: p) →
      ∃ p ∈ l.filter (fun p => pyStrip p ≠ []), u <:+: p := by
    rintro l ⟨p, hp, hip⟩
    exact ⟨p, List.mem_filter.mpr
      ⟨hp, decide_eq_true (pyStrip_ne_nil_of_contained hu hip)⟩, hip⟩
  by_cases h₁ : pyStrip (pyDrop text st.pos) ≠ []
  · rw [if_pos h₁]
    by_cases h₂ : ms < st.size + (pyStrip (pyDrop text st.pos)).length ∧ st.cur ≠ []
    · rw [if_pos h₂]
      apply hfil
      rcases holdsIn_flush h with ⟨p, hp, hip⟩
      exact ⟨p, List.mem_append.mpr (Or.inl hp), hip⟩
    · rw [if_neg h₂]
      apply hfil
      rcases h with ⟨p, hp, hip⟩ | ⟨c, hc, hic⟩
      · exact ⟨p, List.mem_append.mpr (Or.inl hp), hip⟩
      · refine ⟨pyJoin ['\n'] (st.cur ++ [pyStrip (pyDrop text st.pos)]), by simp, ?_⟩
        exact hic.trans (mem_pyJoin_isInfix ['\n'] _ c (List.mem_append.mpr (Or.inl hc)))
  · rw [if_neg h₁]
    by_cases h₃ : st.cur ≠ []
    · rw [if_pos h₃]
      exact hfil _ (holdsIn_flush h)
    · rw [if_neg h₃]
      apply hfil
      rcases h with ⟨p, hp, hip⟩ | ⟨c, hc, _⟩
      · exact ⟨p, hp, hip⟩
      · exfalso
        rw [not_not.mp h₃] at hc
        exact absurd hc (List.not_mem_nil c)

/-- C4: no chunk boundary falls strictly inside a detected
condition-list unit: for every unit detected by
`_find_condition_list_boundaries` whose stripped text fits the
`max_condition_list_size` ceiling (and is not pure whitespace), the
whole unit text occurs contiguously inside a single piece emitted by
`_split_preserving_lists`. -/
theorem C4_condition_list_units_atomic (text : PyStr) (max_size ceiling : Nat)
    (ls le : Nat) (hb : (ls, le) ∈ find_condition_list_boundaries text)
    (hlen : (pyStrip (pySlice text ls le)).length ≤ ceiling)
    (hne : pyStrip (pySlice text ls le) ≠ []) :
    ∃ p ∈ split_preserving_lists text max_size ceiling,
      pyStrip (pySlice text ls le) <:+: p := by
  unfold split_preserving_lists
  by_cases hsmall : text.length ≤ max_size
  · rw [if_pos hsmall]
    exact ⟨text, by simp, (pyStrip_isInfix _).trans (pySlice_isInfix text ls le)⟩
  · rw [if_neg hsmall]
    have hbne : ¬ (find_condition_list_boundaries text = []) := by
      intro hnil
      rw [hnil] at hb
      exact absurd hb (List.not_mem_nil _)
    rw [if_neg hbne]
    exact finalizePL_keeps text max_size _
      (exists_nonws_of_pyStrip_ne_nil hne)
      (splitPLLoop_establishes text max_size ceiling ls le hlen _ _ hb)

set_option maxRecDepth 100000 in
set_option maxHeartbeats 4000000 in
/-- C4 witness: in the concrete section text, the detected unit spanning
positions 50-184 (the `you must register … apply:` lead-in with its two
lettered items) survives splitting at `max_size = 100` inside a single
piece. -/
theorem C4_condition_list_units_atomic_witness :
    ∃ p ∈ split_preserving_lists c4Text 100 4000,
      pyStrip (pySlice c4Text 50 184) <:+: p :=
  C4_condition_list_units_atomic c4Text 100 4000 50 184 (by decide) (by decide) (by decide)

end ElegantBot
